import Mathlib

/-!
# Verification of the `scpsl-api` conversion layer

Shallow embedding of the Rust crate `scpsl-api` (files `src/ip.rs`,
`src/server_info/mod.rs`, `src/server_info/raw.rs`) together with proofs
about the Wire ↔ Domain conversion layer, the query builder and the ip
lookup dispatch.

Conventions of the embedding:
* Rust `u64`/`u32`/`u16` values are modelled as `Nat`; the conversions under
  study only copy them or print/parse them in decimal, so no wrap-around
  arithmetic occurs.  Where a width bound matters (the `u32` player counts)
  it appears as an explicit `< 2 ^ 32` side condition.
* Rust `String` is modelled as Lean `String` (a sequence of Unicode scalar
  values, exactly the invariant of a Rust `String`).
* A Rust panic (`Option::unwrap` / `Result::unwrap` on a failing value) is
  modelled by `Option.none`: a function that can panic returns `Option α`,
  and `none` means the original code aborts with a panic and produces
  **no** value (in particular no typed error value).
* External library functions used by the crate (`chrono` date
  formatting/parsing, `base64`, UTF-8 validation from `std`, the decimal
  `FromStr`/`Display` impls of the integer types, `std::net` address
  parsing, `serde`/`serde_json` deserialization) are embedded by faithful
  executable models of their documented behaviour, written out below next
  to the conversion that uses them.
-/

/-! ## Decimal digits (Rust `Display` / `FromStr` for unsigned integers) -/

/-- The ASCII digit character for `n < 10` (used by Rust's decimal
`Display`).  Total by returning `'9'` for the unreachable `n ≥ 10` case;
it is only ever applied to `n % 10`. -/
def decDigitChar (n : Nat) : Char :=
  match n with
  | 0 => '0' | 1 => '1' | 2 => '2' | 3 => '3' | 4 => '4'
  | 5 => '5' | 6 => '6' | 7 => '7' | 8 => '8' | _ => '9'

/-- Fuel-driven decimal expansion (the fuel only makes the recursion
structural so that proofs by `decide` can evaluate it; `natDecDigits`
below always supplies enough fuel, see `natDecDigits_eq`). -/
def natDecDigitsAux : Nat → Nat → List Char
  | 0, _ => []
  | f + 1, n =>
    if n < 10 then [decDigitChar n]
    else natDecDigitsAux f (n / 10) ++ [decDigitChar (n % 10)]

/-- Decimal digit list of a natural number, most significant digit first:
the embedding of Rust's `Display` for unsigned integers (no padding, no
sign). -/
def natDecDigits (n : Nat) : List Char := natDecDigitsAux (n + 1) n

/-- Decimal string of a natural number (Rust `u64::to_string`,
`format!("{}")` for an unsigned integer). -/
def natDecString (n : Nat) : String := ⟨natDecDigits n⟩

/-- ASCII digit test (`char::is_ascii_digit`), phrased on the scalar
value so that proofs can reason arithmetically. -/
def isAsciiDigit (c : Char) : Bool := 48 ≤ c.toNat && c.toNat ≤ 57

/-- Numeric value of a list of ASCII digit characters (the accumulator
loop shared by all decimal parsers; garbage on non-digit characters, the
callers check `Char.isDigit` first). -/
def digitsToNat (ds : List Char) : Nat :=
  ds.foldl (fun a c => a * 10 + (c.toNat - 48)) 0

/-- The optional leading `'+'` sign accepted by Rust's unsigned
`from_str`. -/
def stripPlusSign : List Char → List Char
  | c :: t => if c = '+' then t else c :: t
  | [] => []

/-- Embedding of Rust's `u32::from_str`: an optional leading `'+'`, then a
nonempty run of ASCII digits making up the whole input, with the value
required to fit in 32 bits (Rust reports the overflow during the
accumulation; because the accumulator grows monotonically this is
equivalent to the final-value bound checked here). -/
def parseU32 (cs : List Char) : Option Nat :=
  let ds := stripPlusSign cs
  if ds.isEmpty then none
  else if ds.all isAsciiDigit then
    let v := digitsToNat ds
    if v < 4294967296 then some v else none
  else none

/-! ## Wire model (`src/server_info/raw.rs`) -/

/-- `raw.rs`: `enum RawPlayer` — the untagged wire representation of one
player: either a bare user-id string or an object with an id and an
optional nickname. -/
inductive RawPlayer where
  | UserId (id : String)
  | UserIdWithNickname (id : String) (nickname : Option String)
deriving DecidableEq

/-- `raw.rs`: `struct RawServerInfo` — the raw server record exactly as
transmitted (string-encoded date, `"current/max"` count string, base64
info text, optional flags). -/
structure RawServerInfo where
  id : Nat
  port : Nat
  last_online : Option String
  players_count : Option String
  players : Option (List RawPlayer)
  info : Option String
  friendly_fire : Option Bool
  whitelist : Option Bool
  modded : Option Bool
  mods : Option Nat
  suppress : Option Bool
  auto_suppress : Option Bool
deriving DecidableEq

/-- `raw.rs`: `struct RawResponse` — the flat wire response object.  Note
the crate maps *both* `success` and `cooldown` to the JSON key
`"Success"`. -/
structure RawResponse where
  success : Bool
  error : Option String
  servers : Option (List RawServerInfo)
  cooldown : Option Nat
deriving DecidableEq

/-! ## Domain model (`src/server_info/mod.rs`) -/

/-- `mod.rs`: `struct Player` — the unified domain shape of a player. -/
structure Player where
  id : String
  nickname : Option String
deriving DecidableEq

/-- `mod.rs`: `struct PlayersCount` (field order as in the source:
`max_players` is declared first). -/
structure PlayersCount where
  max_players : Nat
  current_players : Nat
deriving DecidableEq

/-- Embedding of `chrono::Date<Utc>` at day precision: a proleptic
Gregorian calendar date. -/
structure DomainDate where
  year : Int
  month : Nat
  day : Nat
deriving DecidableEq

/-- Gregorian leap-year rule (as used by `chrono`'s proleptic calendar). -/
def isLeapYear (y : Int) : Bool :=
  y % 4 = 0 && (y % 100 ≠ 0 || y % 400 = 0)

/-- Days in a month of the proleptic Gregorian calendar (`0` for an
invalid month number, which the validity check below rejects anyway). -/
def daysInMonth (y : Int) (m : Nat) : Nat :=
  match m with
  | 1 => 31 | 2 => if isLeapYear y then 29 else 28 | 3 => 31
  | 4 => 30 | 5 => 31 | 6 => 30 | 7 => 31 | 8 => 31
  | 9 => 30 | 10 => 31 | 11 => 30 | 12 => 31
  | _ => 0

/-- The invariant of a `chrono::NaiveDate`: month and day in calendar
range, year within chrono's representable range
(`i32::MIN >> 13 … i32::MAX >> 13`). -/
def DomainDate.Valid (d : DomainDate) : Prop :=
  1 ≤ d.month ∧ d.month ≤ 12 ∧ 1 ≤ d.day ∧ d.day ≤ daysInMonth d.year d.month ∧
    -262144 ≤ d.year ∧ d.year ≤ 262143

instance (d : DomainDate) : Decidable d.Valid := by
  unfold DomainDate.Valid; infer_instance

/-- `mod.rs`: `struct ServerInfo` — the typed domain record. -/
structure ServerInfo where
  id : Nat
  port : Nat
  last_online : Option DomainDate
  players_count : Option PlayersCount
  players : Option (List Player)
  info : Option String
  friendly_fire : Option Bool
  whitelist : Option Bool
  modded : Option Bool
  mods : Option Nat
  suppress : Option Bool
  auto_suppress : Option Bool
deriving DecidableEq

/-- `mod.rs`: `struct SuccessResponse`. -/
structure SuccessResponse where
  cooldown : Nat
  servers : List ServerInfo
deriving DecidableEq

/-- `mod.rs`: `struct ErrorResponse`. -/
structure ErrorResponse where
  error : String
deriving DecidableEq

/-- `mod.rs`: `enum Response`. -/
inductive Response where
  | Success (s : SuccessResponse)
  | Error (e : ErrorResponse)
deriving DecidableEq

/-! ## Player conversions -/

/-- `mod.rs` lines 310–317: `impl From<RawPlayer> for Player`. -/
def playerFromRaw (raw : RawPlayer) : Player :=
  match raw with
  | .UserId id => { id := id, nickname := none }
  | .UserIdWithNickname id nickname => { id := id, nickname := nickname }

/-- `raw.rs` lines 160–171: `impl From<Player> for RawPlayer`. -/
def rawPlayerFromPlayer (player : Player) : RawPlayer :=
  match player.nickname with
  | some nickname => .UserIdWithNickname player.id (some nickname)
  | none => .UserId player.id

/-! ## Player-count conversions -/

/-- Embedding of Rust's `str::split` for a single-character separator: the
list of (possibly empty) chunks between occurrences of `sep`; always
nonempty, and the empty input yields `[[]]`, exactly as `"".split('/')`
yields `[""]`. -/
def splitOnChar (sep : Char) : List Char → List (List Char)
  | [] => [[]]
  | c :: cs =>
    let r := splitOnChar sep cs
    if c = sep then [] :: r
    else
      match r with
      | h :: t => (c :: h) :: t
      | [] => [[c]]

/-- `mod.rs` lines 237–243 (the `players_count` closure inside
`From<RawServerInfo> for ServerInfo`): split the wire string on `'/'`,
`unwrap` the first two chunks and `unwrap` their `u32` parses; the first
chunk is `current_players`, the second `max_players`; any further chunks
are dropped on the floor by the iterator.  `none` models the panic of one
of the four `unwrap`s. -/
def parsePlayersCount (s : String) : Option PlayersCount :=
  match splitOnChar '/' s.data with
  | a :: b :: _ => do
    let cur ← parseU32 a
    let mx ← parseU32 b
    some { max_players := mx, current_players := cur }
  | _ => none

/-- `raw.rs` lines 121–126: the `players_count` closure of
`From<ServerInfo> for RawServerInfo`: `format!("{}/{}", current, max)`. -/
def formatPlayersCount (pc : PlayersCount) : String :=
  ⟨natDecDigits pc.current_players ++ '/' :: natDecDigits pc.max_players⟩

/-! ### Specification model for the count conversion (C5 comparison)

The spec describes the count conversion as splitting on the *first* `'/'`
only and failing with a typed `CountFormatError`; the definitions below
follow the spec's words so the code's behaviour can be compared against
them. -/

/-- Modelled from the spec: the typed `CountFormatError` error value the
spec says the count conversion returns (the crate defines no such
type). -/
inductive CountError where
  | CountFormatError
deriving DecidableEq

/-- Modelled from the spec: split a string on the **first** occurrence of
`sep` only (at most two chunks). -/
def splitFirstOnChar (sep : Char) : List Char → List (List Char)
  | [] => [[]]
  | c :: t =>
    if c = sep then [[], t]
    else
      match splitFirstOnChar sep t with
      | h :: r => (c :: h) :: r
      | [] => [[c]]

/-- Modelled from the spec: the count conversion as the spec states it —
split on the first `'/'` only, succeed when both resulting parts are
nonnegative integers, otherwise return `CountFormatError`. -/
def parsePlayersCountSpec (s : String) : Except CountError PlayersCount :=
  match splitFirstOnChar '/' s.data with
  | a :: b :: _ =>
    match parseU32 a, parseU32 b with
    | some cur, some mx => .ok { max_players := mx, current_players := cur }
    | _, _ => .error .CountFormatError
  | _ => .error .CountFormatError

/-! ## Date conversions (`chrono` embedding)

`mod.rs` parses `LastOnline` with
`NaiveDate::parse_from_str(s, "%Y-%m-%d").unwrap()` and `raw.rs` formats it
with `date.format("%Y-%m-%d")`.  The definitions below embed chrono's
formatter and parser for exactly this format string, whose item sequence is
`[Numeric(Year), Literal("-"), Numeric(Month), Literal("-"), Numeric(Day)]`.
-/

/-- Unicode `White_Space` code points: chrono's parser calls
`trim_left()` before every numeric item. -/
def isWsChar (c : Char) : Bool :=
  c.toNat = 9 || c.toNat = 10 || c.toNat = 11 || c.toNat = 12 || c.toNat = 13 ||
  c.toNat = 32 || c.toNat = 133 || c.toNat = 160 || c.toNat = 5760 ||
  (8192 ≤ c.toNat && c.toNat ≤ 8202) || c.toNat = 8232 || c.toNat = 8233 ||
  c.toNat = 8239 || c.toNat = 8287 || c.toNat = 12288

/-- Greedy run of ASCII digits, at most `maxd` of them (chrono's
`scan::number(s, 1, width)` takes up to `width` digits and leaves the
rest of the input in place). -/
def takeDigitsUpTo : Nat → List Char → List Char × List Char
  | 0, cs => ([], cs)
  | _ + 1, [] => ([], [])
  | n + 1, c :: cs =>
    if isAsciiDigit c then
      let p := takeDigitsUpTo n cs
      (c :: p.1, p.2)
    else ([], c :: cs)

/-- Greedy run of ASCII digits with no length limit (chrono's
`scan::number(s, 1, usize::MAX)`, used after an explicit sign). -/
def takeDigitsAll : List Char → List Char × List Char
  | [] => ([], [])
  | c :: cs =>
    if isAsciiDigit c then
      let p := takeDigitsAll cs
      (c :: p.1, p.2)
    else ([], c :: cs)

/-- chrono `scan::number` with a digit limit: at least one digit is
required.  chrono accumulates into a checked `i64`; an overflow there is
reported as out-of-range, which the (much tighter) year/month/day range
checks of `mkNaiveDate` below subsume, so the value is returned
unbounded. -/
def scanNumberUpTo (maxd : Nat) (cs : List Char) : Option (Nat × List Char) :=
  let p := takeDigitsUpTo maxd cs
  if p.1.isEmpty then none else some (digitsToNat p.1, p.2)

/-- chrono `scan::number` without a digit limit (signed branch). -/
def scanNumberAll (cs : List Char) : Option (Nat × List Char) :=
  let p := takeDigitsAll cs
  if p.1.isEmpty then none else some (digitsToNat p.1, p.2)

/-- chrono's numeric `Year` item: an explicit `'-'` or `'+'` sign admits
an unlimited digit run; with no sign at most 4 digits are taken. -/
def parseYearNum (cs : List Char) : Option (Int × List Char) :=
  match cs with
  | [] => none
  | c :: t =>
    if c = '-' then (scanNumberAll t).map fun p => (-(p.1 : Int), p.2)
    else if c = '+' then (scanNumberAll t).map fun p => ((p.1 : Int), p.2)
    else (scanNumberUpTo 4 (c :: t)).map fun p => ((p.1 : Int), p.2)

/-- chrono literal item: the next character must be exactly `c`. -/
def expectChar (c : Char) (cs : List Char) : Option (List Char) :=
  match cs with
  | x :: t => if x = c then some t else none
  | [] => none

/-- `NaiveDate::from_ymd_opt` (the validation done by
`Parsed::to_naive_date`): month and day in calendar range, year within
chrono's representable range. -/
def mkNaiveDate (y : Int) (m d : Nat) : Option DomainDate :=
  if 1 ≤ m ∧ m ≤ 12 ∧ 1 ≤ d ∧ d ≤ daysInMonth y m ∧ -262144 ≤ y ∧ y ≤ 262143
  then some { year := y, month := m, day := d }
  else none

/-- Embedding of `NaiveDate::parse_from_str(s, "%Y-%m-%d")`: leading
whitespace is trimmed before each numeric item, the two `'-'` literals
must match exactly, the whole input must be consumed, and the collected
fields go through calendar validation. -/
def parseDate (s : String) : Option DomainDate := do
  let (y, cs1) ← parseYearNum ((s.data).dropWhile isWsChar)
  let cs2 ← expectChar '-' cs1
  let (m, cs4) ← scanNumberUpTo 2 (cs2.dropWhile isWsChar)
  let cs5 ← expectChar '-' cs4
  let (d, cs7) ← scanNumberUpTo 2 (cs5.dropWhile isWsChar)
  if cs7.isEmpty then mkNaiveDate y m d else none

/-- Zero-padding to width `w` (chrono `Pad::Zero`). -/
def padZeros (w : Nat) (ds : List Char) : List Char :=
  List.replicate (w - ds.length) '0' ++ ds

/-- chrono's formatting of the numeric `Year` item (`write_n` with width
4, zero padding, and a forced sign for years outside `0..=9999`). -/
def formatYear (y : Int) : List Char :=
  if y < 0 then '-' :: padZeros 4 (natDecDigits y.natAbs)
  else if y < 10000 then padZeros 4 (natDecDigits y.toNat)
  else '+' :: natDecDigits y.toNat

/-- Embedding of `date.format("%Y-%m-%d").to_string()` (`raw.rs` lines
118–120). -/
def formatDate (d : DomainDate) : String :=
  ⟨formatYear d.year ++ '-' :: padZeros 2 (natDecDigits d.month) ++
    '-' :: padZeros 2 (natDecDigits d.day)⟩

/-! ## Base64 (embedding of the `base64` crate, standard alphabet, padded)

`raw.rs` encodes the `info` text with `base64::encode` and `mod.rs`
decodes it with `base64::decode(..).unwrap()`.  The models below are
extensional: three input bytes become four alphabet characters, a final
partial group is padded with `'='`, and decoding processes four-character
chunks, accepts an unpadded or padded final chunk, and rejects invalid
characters, stray padding and nonzero trailing bits exactly as the
crate's standard configuration does.
-/

/-- Standard base64 alphabet character of a 6-bit value. -/
def b64Char (n : Nat) : Char :=
  if n < 26 then Char.ofNat (65 + n)
  else if n < 52 then Char.ofNat (71 + n)
  else if n < 62 then Char.ofNat (n - 4)
  else if n = 62 then '+' else '/'

/-- Inverse of the standard base64 alphabet. -/
def b64CharDec (c : Char) : Option Nat :=
  if 65 ≤ c.toNat ∧ c.toNat ≤ 90 then some (c.toNat - 65)
  else if 97 ≤ c.toNat ∧ c.toNat ≤ 122 then some (c.toNat - 71)
  else if 48 ≤ c.toNat ∧ c.toNat ≤ 57 then some (c.toNat + 4)
  else if c = '+' then some 62
  else if c = '/' then some 63
  else none

/-- `base64::encode` on a byte sequence. -/
def b64encode : List Nat → List Char
  | [] => []
  | [a] => [b64Char (a / 4), b64Char (a % 4 * 16), '=', '=']
  | [a, b] => [b64Char (a / 4), b64Char (a % 4 * 16 + b / 16), b64Char (b % 16 * 4), '=']
  | a :: b :: c :: rest =>
    b64Char (a / 4) :: b64Char (a % 4 * 16 + b / 16) ::
      b64Char (b % 16 * 4 + c / 64) :: b64Char (c % 64) :: b64encode rest

/-- Final base64 chunk carrying one byte (two symbols); the decoder
rejects nonzero trailing bits (`InvalidLastSymbol`). -/
def b64FinalTwo (p q : Char) : Option (List Nat) := do
  let a ← b64CharDec p
  let b ← b64CharDec q
  if b % 16 = 0 then some [a * 4 + b / 16] else none

/-- Final base64 chunk carrying two bytes (three symbols). -/
def b64FinalThree (p q r : Char) : Option (List Nat) := do
  let a ← b64CharDec p
  let b ← b64CharDec q
  let c ← b64CharDec r
  if c % 4 = 0 then some [a * 4 + b / 16, b % 16 * 16 + c / 4] else none

/-- A full base64 chunk of three bytes (four symbols, no padding). -/
def b64Quad (p q r s : Char) : Option (List Nat) := do
  let a ← b64CharDec p
  let b ← b64CharDec q
  let c ← b64CharDec r
  let d ← b64CharDec s
  some [a * 4 + b / 16, b % 16 * 16 + c / 4, c % 4 * 64 + d]

/-- `base64::decode` on a character sequence (standard config: padded
canonical input decodes; a length of 1 mod 4 is `InvalidLength`; a `'='`
anywhere except the final positions is an invalid byte because it is not
in the alphabet). -/
def b64decode : List Char → Option (List Nat)
  | [] => some []
  | [_] => none
  | [p, q] => b64FinalTwo p q
  | [p, q, r] => if r = '=' then b64FinalTwo p q else b64FinalThree p q r
  | [p, q, r, s] =>
    if s = '=' then
      if r = '=' then b64FinalTwo p q else b64FinalThree p q r
    else b64Quad p q r s
  | p :: q :: r :: s :: rest => do
    let bytes ← b64Quad p q r s
    let tail ← b64decode rest
    some (bytes ++ tail)

/-! ## UTF-8 (embedding of `std::str::from_utf8` and `String`'s byte view) -/

/-- UTF-8 encoding of one Unicode scalar value (the byte view a Rust
`String` has of one of its `char`s). -/
def utf8EncodeChar (c : Nat) : List Nat :=
  if c < 128 then [c]
  else if c < 2048 then [192 + c / 64, 128 + c % 64]
  else if c < 65536 then [224 + c / 4096, 128 + c / 64 % 64, 128 + c % 64]
  else [240 + c / 262144, 128 + c / 4096 % 64, 128 + c / 64 % 64, 128 + c % 64]

/-- The UTF-8 byte sequence of a string (`String::as_bytes` /
`String::into_bytes` in Rust). -/
def utf8Encode (s : String) : List Nat :=
  (s.data.map fun c => utf8EncodeChar c.toNat).flatten

/-- Embedding of `std::str::from_utf8` (the validation table of
`core::str::validations`): one Unicode scalar per well-formed sequence,
rejecting stray continuation bytes, overlong forms (`0xC0/0xC1`, and the
low ranges after `0xE0`/`0xF0`), surrogates (`0xED` followed by
`0xA0..`), and values above `U+10FFFF` (`0xF5..`, and `0xF4` followed by
`0x90..`). -/
def utf8Decode : List Nat → Option (List Char)
  | [] => some []
  | b :: bs =>
    if b < 128 then (utf8Decode bs).map fun cs => Char.ofNat b :: cs
    else if b < 194 then none
    else if b < 224 then
      match bs with
      | b1 :: bs2 =>
        if 128 ≤ b1 ∧ b1 < 192 then
          (utf8Decode bs2).map fun cs => Char.ofNat ((b - 192) * 64 + (b1 - 128)) :: cs
        else none
      | [] => none
    else if b < 240 then
      match bs with
      | b1 :: b2 :: bs3 =>
        if (128 ≤ b1 ∧ b1 < 192) ∧ (128 ≤ b2 ∧ b2 < 192) ∧
            ¬(b = 224 ∧ b1 < 160) ∧ ¬(b = 237 ∧ 160 ≤ b1) then
          (utf8Decode bs3).map fun cs =>
            Char.ofNat ((b - 224) * 4096 + (b1 - 128) * 64 + (b2 - 128)) :: cs
        else none
      | _ => none
    else if b < 245 then
      match bs with
      | b1 :: b2 :: b3 :: bs4 =>
        if (128 ≤ b1 ∧ b1 < 192) ∧ (128 ≤ b2 ∧ b2 < 192) ∧ (128 ≤ b3 ∧ b3 < 192) ∧
            ¬(b = 240 ∧ b1 < 144) ∧ ¬(b = 244 ∧ 144 ≤ b1) then
          (utf8Decode bs4).map fun cs =>
            Char.ofNat ((b - 240) * 262144 + (b1 - 128) * 4096 + (b2 - 128) * 64 + (b3 - 128)) :: cs
        else none
      | _ => none
    else none

/-- `raw.rs` line 130: `info: server_info.info.map(base64::encode)`. -/
def encodeInfoText (s : String) : String := ⟨b64encode (utf8Encode s)⟩

/-- `mod.rs` lines 247–251 (the `info` closure):
`std::str::from_utf8(base64::decode(info).unwrap().as_slice()).unwrap().to_string()`;
`none` models either `unwrap` panicking. -/
def decodeInfoText (s : String) : Option String :=
  (b64decode s.data).bind fun bytes =>
    (utf8Decode bytes).map fun cs => (⟨cs⟩ : String)

/-! ## Record and response conversions -/

/-- Rust's `Option::map` over a fallible (panicking) closure: `none`
input stays `none` without running the closure; on `some`, a panic of the
closure aborts the whole conversion. -/
def optTraverse (f : α → Option β) : Option α → Option (Option β)
  | none => some none
  | some a => (f a).map some

/-- `mod.rs` lines 226–260: `impl From<RawServerInfo> for ServerInfo`.
The outer `none` models a panic inside one of the field closures (date
parse, count parse, base64/UTF-8 decode). -/
def serverInfoFromRaw (raw : RawServerInfo) : Option ServerInfo := do
  let lastOnline ← optTraverse parseDate raw.last_online
  let playersCount ← optTraverse parsePlayersCount raw.players_count
  let info ← optTraverse decodeInfoText raw.info
  some { id := raw.id, port := raw.port, last_online := lastOnline,
         players_count := playersCount,
         players := raw.players.map (List.map playerFromRaw),
         info := info, friendly_fire := raw.friendly_fire,
         whitelist := raw.whitelist, modded := raw.modded, mods := raw.mods,
         suppress := raw.suppress, auto_suppress := raw.auto_suppress }

/-- `raw.rs` lines 113–139: `impl From<ServerInfo> for RawServerInfo`
(total: formatting never fails). -/
def rawServerInfoFromServerInfo (si : ServerInfo) : RawServerInfo :=
  { id := si.id, port := si.port,
    last_online := si.last_online.map formatDate,
    players_count := si.players_count.map formatPlayersCount,
    players := si.players.map (List.map rawPlayerFromPlayer),
    info := si.info.map encodeInfoText,
    friendly_fire := si.friendly_fire, whitelist := si.whitelist,
    modded := si.modded, mods := si.mods, suppress := si.suppress,
    auto_suppress := si.auto_suppress }

/-- `into_iter().map(ServerInfo::from).collect()` over the wire server
list: each record is converted in order and a panic in any conversion
aborts the whole collection. -/
def mapServerInfos : List RawServerInfo → Option (List ServerInfo)
  | [] => some []
  | r :: rs => do
    let si ← serverInfoFromRaw r
    let rest ← mapServerInfos rs
    some (si :: rest)

/-- `mod.rs` lines 22–38: `impl From<RawResponse> for Response`.  When the
wire `error` field is present the `Error` variant is produced; otherwise
the code `unwrap`s `cooldown` and `servers` (panic — modelled `none` — if
either is absent) and converts every server (propagating their panics). -/
def responseFromRaw (raw : RawResponse) : Option Response :=
  match raw.error with
  | some error => some (.Error { error := error })
  | none => do
    let cooldown ← raw.cooldown
    let servers ← raw.servers
    let domainServers ← mapServerInfos servers
    some (.Success { cooldown := cooldown, servers := domainServers })

/-- `raw.rs` lines 33–56: `impl From<Response> for RawResponse`. -/
def rawResponseFromResponse (response : Response) : RawResponse :=
  match response with
  | .Success success =>
    { success := true, error := none,
      servers := some (success.servers.map rawServerInfoFromServerInfo),
      cooldown := some success.cooldown }
  | .Error error =>
    { success := false, error := some error.error, servers := none, cooldown := none }

/-! ## Query builder (`raw.rs` lines 176–218, `raw::get`)

The URL itself, percent-escaping and the HTTP exchange belong to the
`url`/`reqwest` collaborators; what the crate decides is *which*
key/value pairs are appended to the query string and in which order,
which is what `buildQueryPairs` captures. -/

/-- `mod.rs` lines 320–333: `struct RequestParameters` (minus the base
`Url`, which only hosts the pairs). -/
structure RequestParameters where
  id : Option Nat
  key : Option String
  last_online : Bool
  players : Bool
  list : Bool
  info : Bool
  pastebin : Bool
  version : Bool
  flags : Bool
  nicknames : Bool
  online : Bool

/-- The query pairs appended by `raw::get`, in source order: `id` (printed
in decimal) and `key` when set, then each feature flag with the literal
value `"true"` when the flag is `true` and nothing at all when it is
`false`. -/
def buildQueryPairs (p : RequestParameters) : List (String × String) :=
  (match p.id with | some i => [("id", natDecString i)] | none => []) ++
  (match p.key with | some k => [("key", k)] | none => []) ++
  (if p.last_online then [("lo", "true")] else []) ++
  (if p.players then [("players", "true")] else []) ++
  (if p.list then [("list", "true")] else []) ++
  (if p.info then [("info", "true")] else []) ++
  (if p.pastebin then [("pastebin", "true")] else []) ++
  (if p.version then [("version", "true")] else []) ++
  (if p.flags then [("flags", "true")] else []) ++
  (if p.nicknames then [("nicknames", "true")] else []) ++
  (if p.online then [("online", "true")] else [])

/-! ## IP lookup (`src/ip.rs`)

`ip::get` performs two reqwest steps (the GET itself and reading the
body) and then parses the body text with `IpAddr::from_str`.  The
transport outcome is the external collaborator's input to the function;
the address grammar below embeds `core::net::parser` (`Parser::parse_with`
over `read_ip_addr`). -/

/-- Abstract stand-in for `reqwest::Error` (opaque to this crate: it is
only stored and returned). -/
structure ReqwestErr where
  code : Nat
deriving DecidableEq

/-- The three outcomes of the two chained transport calls in `ip::get`:
the GET fails, reading the body fails, or a body text is produced. -/
inductive FetchOutcome where
  | getError (e : ReqwestErr)
  | textError (e : ReqwestErr)
  | text (body : String)

/-- `ip.rs` lines 13–19: `enum Error` for the `ip` request. -/
inductive IpError where
  | AddrParseError
  | ReqwestError (e : ReqwestErr)
deriving DecidableEq

/-- `std::net::IpAddr`. -/
inductive IpAddr where
  | v4 (a b c d : Nat)
  | v6 (groups : List Nat)
deriving DecidableEq

/-- `char::to_digit(radix)` for the radixes 10 and 16 used by the
address parser. -/
def radixDigitVal (radix : Nat) (c : Char) : Option Nat :=
  let v :=
    if isAsciiDigit c then some (c.toNat - 48)
    else if 97 ≤ c.toNat ∧ c.toNat ≤ 102 then some (c.toNat - 87)
    else if 65 ≤ c.toNat ∧ c.toNat ≤ 70 then some (c.toNat - 55)
    else none
  match v with
  | some d => if d < radix then some d else none
  | none => none

/-- Greedy run of radix digits with their values. -/
def takeRadixDigits (radix : Nat) : List Char → List Nat × List Char
  | [] => ([], [])
  | c :: cs =>
    match radixDigitVal radix c with
    | some d =>
      let p := takeRadixDigits radix cs
      (d :: p.1, p.2)
    | none => ([], c :: cs)

/-- `core::net::parser::Parser::read_number`: a greedy run of digits in
the given radix; fails with no digits, with more than `maxDigits` digits,
with a disallowed leading zero, or when the value overflows the target
integer type (bound `maxVal`; std detects the overflow during the checked
accumulation, which is equivalent to this final-value check because the
accumulator grows monotonically). -/
def readRadixNumber (radix maxDigits maxVal : Nat) (allowZeroPrefix : Bool)
    (cs : List Char) : Option (Nat × List Char) :=
  let p := takeRadixDigits radix cs
  let value := p.1.foldl (fun a d => a * radix + d) 0
  if p.1.isEmpty then none
  else if maxDigits < p.1.length then none
  else if !allowZeroPrefix && (match cs with | c :: _ => c = '0' | [] => false) &&
      1 < p.1.length then none
  else if value ≤ maxVal then some (value, p.2) else none

/-- `Parser::read_ipv4_addr`: four octet groups (1–3 decimal digits, no
leading zero, value ≤ 255) separated by `'.'`. -/
def readIpv4 (cs : List Char) : Option ((Nat × Nat × Nat × Nat) × List Char) := do
  let (a, cs1) ← readRadixNumber 10 3 255 false cs
  let cs2 ← expectChar '.' cs1
  let (b, cs3) ← readRadixNumber 10 3 255 false cs2
  let cs4 ← expectChar '.' cs3
  let (c, cs5) ← readRadixNumber 10 3 255 false cs4
  let cs6 ← expectChar '.' cs5
  let (d, cs7) ← readRadixNumber 10 3 255 false cs6
  some ((a, b, c, d), cs7)

/-- `Parser::read_separator(':', i, inner)`: every group but the first of
a run is preceded by `':'`. -/
def withColon (needed : Bool) (cs : List Char) : Option (List Char) :=
  if needed then expectChar ':' cs else some cs

/-- `read_ipv6_addr`'s inner `read_groups`: reads up to `remaining`
16-bit groups (4 hex digits each); when at least two slots remain it
first tries a trailing embedded IPv4 address, which fills two groups and
ends the run (flag `true`).  Returns the groups read, the unconsumed
input and the embedded-IPv4 flag; a failed attempt consumes nothing. -/
def readIpv6Groups (sepNeeded : Bool) (remaining : Nat) (cs : List Char) :
    List Nat × List Char × Bool :=
  match remaining with
  | 0 => ([], cs, false)
  | r + 1 =>
    let v4try : Option (List Nat × List Char) :=
      if 1 ≤ r then
        match (withColon sepNeeded cs).bind readIpv4 with
        | some ((a, b, c, d), rest) => some ([a * 256 + b, c * 256 + d], rest)
        | none => none
      else none
    match v4try with
    | some (gs, rest) => (gs, rest, true)
    | none =>
      match (withColon sepNeeded cs).bind (readRadixNumber 16 4 65535 true) with
      | some (g, rest) =>
        let q := readIpv6Groups true r rest
        (g :: q.1, q.2.1, q.2.2)
      | none => ([], cs, false)

/-- `Parser::read_ipv6_addr`: a head run of groups; if it fills all 8
slots the address is complete; an embedded IPv4 not in final position is
rejected; otherwise a literal `"::"` followed by a tail run of at most
`8 - head - 1` groups, the gap filled with zero groups. -/
def readIpv6 (cs : List Char) : Option (List Nat × List Char) :=
  let h := readIpv6Groups false 8 cs
  let head := h.1
  let rest := h.2.1
  let headV4 := h.2.2
  if head.length = 8 then some (head, rest)
  else if headV4 then none
  else
    match expectChar ':' rest with
    | none => none
    | some rest1 =>
      match expectChar ':' rest1 with
      | none => none
      | some rest2 =>
        let limit := 8 - (head.length + 1)
        let t := readIpv6Groups false limit rest2
        some (head ++ List.replicate (8 - head.length - t.1.length) 0 ++ t.1, t.2.1)

/-- `IpAddr::from_str`: try IPv4, otherwise IPv6 (`read_ip_addr`), then
require the whole input to be consumed (`parse_with`). -/
def ipAddrFromStr (s : String) : Option IpAddr :=
  match readIpv4 s.data with
  | some (g, rest) =>
    if rest.isEmpty then some (.v4 g.1 g.2.1 g.2.2.1 g.2.2.2) else none
  | none =>
    match readIpv6 s.data with
    | some (gs, rest) => if rest.isEmpty then some (.v6 gs) else none
    | none => none

/-- `ip.rs` lines 43–54: `ip::get`, with the two reqwest steps supplied
as the transport outcome. -/
def ipGet (fetch : FetchOutcome) : Except IpError IpAddr :=
  match fetch with
  | .getError e => .error (.ReqwestError e)
  | .textError e => .error (.ReqwestError e)
  | .text body =>
    match ipAddrFromStr body with
    | some ip => .ok ip
    | none => .error .AddrParseError

/-! ## JSON deserialization (embedding of the serde derive for the
wire structs)

`FromStr for Response` (the earlier `server_info.rs` revision of the
crate; the current `raw::get` does the same through
`response.json::<RawResponse>()`) runs `serde_json::from_str::<RawResponse>`
and converts the result.  serde_json streams the object's members *in
textual order* to the struct visitor, so a JSON object is modelled as an
ordered member list that may contain duplicate keys.  The generated
visitor matches each key against the field names in declaration order —
which makes the `cooldown` arm (also renamed `"Success"`) unreachable —
fills at most one slot per field, reports a duplicate when a slot is
already filled and a missing required field at the end, defaults the
`#[serde(default)]` fields to `None`, and skips unknown keys. -/

/-- A parsed JSON value; objects keep their member order and duplicates
(exactly the event stream serde_json hands to the visitor). -/
inductive Json where
  | null
  | bool (b : Bool)
  | num (n : Int)
  | str (s : String)
  | arr (elems : List Json)
  | obj (members : List (String × Json))

/-- A serde_json deserialization error (`serde_json::Error`), at the
granularity the claims need. -/
inductive DeError where
  | duplicateField (name : String)
  | missingField (name : String)
  | invalidType
  | untaggedMismatch
deriving DecidableEq

/-- Deserialize a `String` field. -/
def deString : Json → Except DeError String
  | .str s => .ok s
  | _ => .error .invalidType

/-- Deserialize a `bool` field. -/
def deBool : Json → Except DeError Bool
  | .bool b => .ok b
  | _ => .error .invalidType

/-- Deserialize a `u64` field. -/
def deU64 : Json → Except DeError Nat
  | .num n => if 0 ≤ n ∧ n < 18446744073709551616 then .ok n.toNat else .error .invalidType
  | _ => .error .invalidType

/-- Deserialize a `u16` field. -/
def deU16 : Json → Except DeError Nat
  | .num n => if 0 ≤ n ∧ n < 65536 then .ok n.toNat else .error .invalidType
  | _ => .error .invalidType

/-- Deserialize an `Option<T>` field: JSON `null` is `None`, anything
else must deserialize as `T`. -/
def deOpt (f : Json → Except DeError α) : Json → Except DeError (Option α)
  | .null => .ok none
  | j => (f j).map some

/-- Deserialize a `Vec<T>` field. -/
def deArr (f : Json → Except DeError α) : Json → Except DeError (List α)
  | .arr es => es.mapM f
  | _ => .error .invalidType

/-- Member loop of the struct variant of the untagged `RawPlayer`
(fields `"ID"` required, `"Nickname"` defaulted). -/
def rawPlayerFields : List (String × Json) → Option String → Option (Option String) →
    Except DeError RawPlayer
  | [], idAcc, nickAcc =>
    match idAcc with
    | some id => .ok (.UserIdWithNickname id (nickAcc.getD none))
    | none => .error (.missingField "ID")
  | (k, v) :: rest, idAcc, nickAcc =>
    if k = "ID" then
      match idAcc with
      | some _ => .error (.duplicateField "ID")
      | none => do
        let s ← deString v
        rawPlayerFields rest (some s) nickAcc
    else if k = "Nickname" then
      match nickAcc with
      | some _ => .error (.duplicateField "Nickname")
      | none => do
        let o ← deOpt deString v
        rawPlayerFields rest idAcc (some o)
    else rawPlayerFields rest idAcc nickAcc

/-- `#[serde(untagged)] RawPlayer`: the `UserId(String)` variant succeeds
exactly on a JSON string; otherwise the object variant is tried, and any
failure inside it collapses into the generic untagged mismatch error. -/
def deRawPlayer (j : Json) : Except DeError RawPlayer :=
  match j with
  | .str s => .ok (.UserId s)
  | .obj fields =>
    match rawPlayerFields fields none none with
    | .ok p => .ok p
    | .error _ => .error .untaggedMismatch
  | _ => .error .untaggedMismatch

/-- Field slots of the `RawServerInfo` visitor. -/
structure RsiAcc where
  id : Option Nat := none
  port : Option Nat := none
  last_online : Option (Option String) := none
  players_count : Option (Option String) := none
  players : Option (Option (List RawPlayer)) := none
  info : Option (Option String) := none
  friendly_fire : Option (Option Bool) := none
  whitelist : Option (Option Bool) := none
  modded : Option (Option Bool) := none
  mods : Option (Option Nat) := none
  suppress : Option (Option Bool) := none
  auto_suppress : Option (Option Bool) := none

/-- Member loop of the `RawServerInfo` visitor (keys as renamed in
`raw.rs`; `"ID"` and `"Port"` required, all other fields defaulted). -/
def rawServerInfoFields : List (String × Json) → RsiAcc → Except DeError RawServerInfo
  | [], acc => do
    let id ← match acc.id with
      | some v => Except.ok v
      | none => Except.error (DeError.missingField "ID")
    let port ← match acc.port with
      | some v => Except.ok v
      | none => Except.error (DeError.missingField "Port")
    .ok { id := id, port := port, last_online := acc.last_online.getD none,
          players_count := acc.players_count.getD none,
          players := acc.players.getD none, info := acc.info.getD none,
          friendly_fire := acc.friendly_fire.getD none,
          whitelist := acc.whitelist.getD none, modded := acc.modded.getD none,
          mods := acc.mods.getD none, suppress := acc.suppress.getD none,
          auto_suppress := acc.auto_suppress.getD none }
  | (k, v) :: rest, acc =>
    if k = "ID" then
      match acc.id with
      | some _ => .error (.duplicateField "ID")
      | none => do
        let n ← deU64 v
        rawServerInfoFields rest { acc with id := some n }
    else if k = "Port" then
      match acc.port with
      | some _ => .error (.duplicateField "Port")
      | none => do
        let n ← deU16 v
        rawServerInfoFields rest { acc with port := some n }
    else if k = "LastOnline" then
      match acc.last_online with
      | some _ => .error (.duplicateField "LastOnline")
      | none => do
        let o ← deOpt deString v
        rawServerInfoFields rest { acc with last_online := some o }
    else if k = "Players" then
      match acc.players_count with
      | some _ => .error (.duplicateField "Players")
      | none => do
        let o ← deOpt deString v
        rawServerInfoFields rest { acc with players_count := some o }
    else if k = "PlayersList" then
      match acc.players with
      | some _ => .error (.duplicateField "PlayersList")
      | none => do
        let o ← deOpt (deArr deRawPlayer) v
        rawServerInfoFields rest { acc with players := some o }
    else if k = "Info" then
      match acc.info with
      | some _ => .error (.duplicateField "Info")
      | none => do
        let o ← deOpt deString v
        rawServerInfoFields rest { acc with info := some o }
    else if k = "FF" then
      match acc.friendly_fire with
      | some _ => .error (.duplicateField "FF")
      | none => do
        let o ← deOpt deBool v
        rawServerInfoFields rest { acc with friendly_fire := some o }
    else if k = "WL" then
      match acc.whitelist with
      | some _ => .error (.duplicateField "WL")
      | none => do
        let o ← deOpt deBool v
        rawServerInfoFields rest { acc with whitelist := some o }
    else if k = "Modded" then
      match acc.modded with
      | some _ => .error (.duplicateField "Modded")
      | none => do
        let o ← deOpt deBool v
        rawServerInfoFields rest { acc with modded := some o }
    else if k = "Mods" then
      match acc.mods with
      | some _ => .error (.duplicateField "Mods")
      | none => do
        let o ← deOpt deU64 v
        rawServerInfoFields rest { acc with mods := some o }
    else if k = "Suppress" then
      match acc.suppress with
      | some _ => .error (.duplicateField "Suppress")
      | none => do
        let o ← deOpt deBool v
        rawServerInfoFields rest { acc with suppress := some o }
    else if k = "AutoSuppress" then
      match acc.auto_suppress with
      | some _ => .error (.duplicateField "AutoSuppress")
      | none => do
        let o ← deOpt deBool v
        rawServerInfoFields rest { acc with auto_suppress := some o }
    else rawServerInfoFields rest acc

/-- `Deserialize for RawServerInfo`. -/
def deserializeRawServerInfo (j : Json) : Except DeError RawServerInfo :=
  match j with
  | .obj fields => rawServerInfoFields fields {}
  | _ => .error .invalidType

/-- Member loop of the `RawResponse` visitor.  Field declaration order is
`success` (key `"Success"`, required), `error` (`"Error"`), `servers`
(`"Servers"`), `cooldown` (key *also* `"Success"`): the generated key
match tries the names in that order, so the `cooldown` arm — kept below
verbatim — can never fire, and a second `"Success"` member is reported as
a duplicate of the `success` field. -/
def rawResponseFields : List (String × Json) → Option Bool → Option (Option String) →
    Option (Option (List RawServerInfo)) → Option (Option Nat) →
    Except DeError RawResponse
  | [], succ, err, srv, cd =>
    match succ with
    | some s =>
      .ok { success := s, error := err.getD none, servers := srv.getD none,
            cooldown := cd.getD none }
    | none => .error (.missingField "Success")
  | (k, v) :: rest, succ, err, srv, cd =>
    if k = "Success" then
      match succ with
      | some _ => .error (.duplicateField "Success")
      | none => do
        let b ← deBool v
        rawResponseFields rest (some b) err srv cd
    else if k = "Error" then
      match err with
      | some _ => .error (.duplicateField "Error")
      | none => do
        let o ← deOpt deString v
        rawResponseFields rest succ (some o) srv cd
    else if k = "Servers" then
      match srv with
      | some _ => .error (.duplicateField "Servers")
      | none => do
        let o ← deOpt (deArr deserializeRawServerInfo) v
        rawResponseFields rest succ err (some o) cd
    else if k = "Success" then
      -- the arm serde generates for the `cooldown` field; dead code, the
      -- identical condition above already matched
      match cd with
      | some _ => .error (.duplicateField "Success")
      | none => do
        let n ← deU64 v
        rawResponseFields rest succ err srv (some n)
    else rawResponseFields rest succ err srv cd

/-- `Deserialize for RawResponse`. -/
def deserializeRawResponse (j : Json) : Except DeError RawResponse :=
  match j with
  | .obj fields => rawResponseFields fields none none none none
  | _ => .error .invalidType

/-- `impl FromStr for Response` (`server_info.rs` lines 141–150): parse
the wire JSON into `RawResponse`, then convert with
`From<RawResponse>`.  The outer `Except` is the serde error; the inner
`Option` is the conversion's panic channel. -/
def responseFromJson (j : Json) : Except DeError (Option Response) :=
  (deserializeRawResponse j).map responseFromRaw

/-! # Helper lemmas: decimal digits -/

theorem natDecDigitsAux_congr : ∀ f g n, n < f → n < g →
    natDecDigitsAux f n = natDecDigitsAux g n := by
  intro f
  induction f with
  | zero => omega
  | succ f ih =>
    intro g n hf hg
    match g, hg with
    | g + 1, _ =>
      show (if n < 10 then _ else _) = (if n < 10 then _ else _)
      by_cases h10 : n < 10
      · simp [h10]
      · have hdiv : n / 10 < n := Nat.div_lt_self (by omega) (by omega)
        simp only [if_neg h10]
        rw [ih g (n / 10) (by omega) (by omega)]

/-- The intended recursion equation for `natDecDigits`. -/
theorem natDecDigits_eq (n : Nat) : natDecDigits n =
    if n < 10 then [decDigitChar n]
    else natDecDigits (n / 10) ++ [decDigitChar (n % 10)] := by
  show (if n < 10 then _ else _) = _
  by_cases h10 : n < 10
  · simp [h10]
  · have hdiv : n / 10 < n := Nat.div_lt_self (by omega) (by omega)
    simp only [if_neg h10]
    rw [natDecDigitsAux_congr n (n / 10 + 1) (n / 10) (by omega) (by omega)]
    rfl

theorem decDigitChar_toNat : ∀ d, d < 10 → (decDigitChar d).toNat = 48 + d := by decide

theorem isAsciiDigit_decDigitChar : ∀ d, d < 10 → isAsciiDigit (decDigitChar d) = true := by
  decide

theorem natDecDigits_ne_nil (n : Nat) : natDecDigits n ≠ [] := by
  rw [natDecDigits_eq]
  split <;> simp

theorem natDecDigits_all_digits (n : Nat) : ∀ c ∈ natDecDigits n, isAsciiDigit c = true := by
  induction n using Nat.strong_induction_on with
  | _ n ih =>
    rw [natDecDigits_eq]
    split
    · next h =>
      intro c hc
      simp only [List.mem_singleton] at hc
      subst hc
      exact isAsciiDigit_decDigitChar n h
    · next h =>
      intro c hc
      rw [List.mem_append] at hc
      rcases hc with hc | hc
      · exact ih (n / 10) (Nat.div_lt_self (by omega) (by omega)) c hc
      · simp only [List.mem_singleton] at hc
        subst hc
        exact isAsciiDigit_decDigitChar (n % 10) (by omega)

theorem foldl_digits_natDecDigits (n : Nat) : ∀ acc,
    (natDecDigits n).foldl (fun a c => a * 10 + (c.toNat - 48)) acc =
      acc * 10 ^ (natDecDigits n).length + n := by
  induction n using Nat.strong_induction_on with
  | _ n ih =>
    intro acc
    rw [natDecDigits_eq]
    split
    · next h =>
      simp only [List.foldl_cons, List.foldl_nil, List.length_singleton, pow_one,
        decDigitChar_toNat n h]
      omega
    · next h =>
      have hdiv : n / 10 < n := Nat.div_lt_self (by omega) (by omega)
      rw [List.foldl_append, List.length_append, ih (n / 10) hdiv acc]
      simp only [List.foldl_cons, List.foldl_nil, List.length_singleton,
        decDigitChar_toNat (n % 10) (by omega)]
      have hmod : n / 10 * 10 + (48 + n % 10 - 48) = n := by omega
      calc (acc * 10 ^ (natDecDigits (n / 10)).length + n / 10) * 10 + (48 + n % 10 - 48)
          = acc * (10 ^ (natDecDigits (n / 10)).length * 10) +
              (n / 10 * 10 + (48 + n % 10 - 48)) := by ring
        _ = acc * 10 ^ ((natDecDigits (n / 10)).length + 1) + n := by rw [hmod, pow_succ]

theorem digitsToNat_natDecDigits (n : Nat) : digitsToNat (natDecDigits n) = n := by
  unfold digitsToNat
  rw [foldl_digits_natDecDigits]
  simp

theorem natDecDigits_length_le : ∀ k n, 1 ≤ k → n < 10 ^ k → (natDecDigits n).length ≤ k := by
  intro k n
  induction n using Nat.strong_induction_on generalizing k with
  | _ n ih =>
    intro hk hn
    rw [natDecDigits_eq]
    split
    · next h => simpa using hk
    · next h =>
      have hdiv : n / 10 < n := Nat.div_lt_self (by omega) (by omega)
      rw [List.length_append, List.length_singleton]
      have hk2 : 2 ≤ k := by
        by_contra hcon
        have : k = 1 := by omega
        subst this
        simp [pow_one] at hn
        omega
      have hdivlt : n / 10 < 10 ^ (k - 1) := by
        rw [Nat.div_lt_iff_lt_mul (by omega)]
        have : 10 ^ (k - 1) * 10 = 10 ^ k := by
          rw [← pow_succ]
          congr 1
          omega
        omega
      have := ih (n / 10) hdiv (k - 1) (by omega) hdivlt
      omega

theorem isAsciiDigit_ne_plus {c : Char} (h : isAsciiDigit c = true) : c ≠ '+' := by
  intro hc
  subst hc
  exact absurd h (by decide)

theorem stripPlusSign_of_digit {c : Char} (t : List Char) (h : isAsciiDigit c = true) :
    stripPlusSign (c :: t) = c :: t := by
  show (if c = '+' then t else c :: t) = c :: t
  rw [if_neg (isAsciiDigit_ne_plus h)]

theorem parseU32_natDecDigits (n : Nat) (h : n < 4294967296) :
    parseU32 (natDecDigits n) = some n := by
  obtain ⟨c, t, heq⟩ : ∃ c t, natDecDigits n = c :: t := by
    cases hnd : natDecDigits n with
    | nil => exact absurd hnd (natDecDigits_ne_nil n)
    | cons c t => exact ⟨c, t, rfl⟩
  have hcdigit : isAsciiDigit c = true :=
    natDecDigits_all_digits n c (heq ▸ List.mem_cons_self c t)
  rw [heq]
  unfold parseU32
  rw [stripPlusSign_of_digit t hcdigit]
  have hall : (c :: t).all isAsciiDigit = true := by
    rw [← heq]
    exact List.all_eq_true.mpr (natDecDigits_all_digits n)
  have hval : digitsToNat (c :: t) = n := by
    rw [← heq]
    exact digitsToNat_natDecDigits n
  simp [hall, hval, h]

/-! # Helper lemmas: player round trip -/

theorem playerFromRaw_rawPlayerFromPlayer (p : Player) :
    playerFromRaw (rawPlayerFromPlayer p) = p := by
  rcases p with ⟨pid, _ | pnick⟩ <;> rfl

/-! # Claim theorems: players and the response invariant -/

/-- C2: Domain → Wire player conversion produces the bare-string wire
variant exactly when the nickname is absent and the object variant (with
the nickname kept) exactly when it is present, and Wire → Domain
conversion recovers the original domain player from either image. -/
theorem claim_player_variant_roundtrip : ∀ (id nick : String) (p : Player),
    rawPlayerFromPlayer { id := id, nickname := none } = .UserId id ∧
    rawPlayerFromPlayer { id := id, nickname := some nick } =
      .UserIdWithNickname id (some nick) ∧
    playerFromRaw (rawPlayerFromPlayer p) = p ∧
    ((∃ i, rawPlayerFromPlayer p = .UserId i) ↔ p.nickname = none) := by
  intro id nick p
  refine ⟨rfl, rfl, playerFromRaw_rawPlayerFromPlayer p, ?_⟩
  rcases p with ⟨pid, _ | pnick⟩ <;> simp [rawPlayerFromPlayer]

/-- C9: the object wire variant with an absent nickname normalizes: it
converts to the domain player without nickname (the id surviving), and
re-encoding produces the bare-string variant, not the original wire
value, so Wire → Domain → Wire is not the identity on this wire shape. -/
theorem claim_player_wire_normalization : ∀ id : String,
    playerFromRaw (.UserIdWithNickname id none) = { id := id, nickname := none } ∧
    rawPlayerFromPlayer (playerFromRaw (.UserIdWithNickname id none)) = .UserId id ∧
    rawPlayerFromPlayer (playerFromRaw (.UserIdWithNickname id none)) ≠
      .UserIdWithNickname id none := by
  intro id
  refine ⟨rfl, rfl, ?_⟩
  simp [rawPlayerFromPlayer, playerFromRaw]

/-- C10: Domain → Wire response conversion always satisfies the wire
schema's mutual-exclusion invariant: a `Success` maps to success flag
`true`, no error, and both servers and cooldown present; an `Error` maps
to success flag `false`, the error present, and no servers or cooldown. -/
theorem claim_response_wire_invariant : ∀ (s : SuccessResponse) (e : ErrorResponse),
    (rawResponseFromResponse (.Success s)).success = true ∧
    (rawResponseFromResponse (.Success s)).error = none ∧
    (rawResponseFromResponse (.Success s)).servers =
      some (s.servers.map rawServerInfoFromServerInfo) ∧
    (rawResponseFromResponse (.Success s)).cooldown = some s.cooldown ∧
    (rawResponseFromResponse (.Error e)).success = false ∧
    (rawResponseFromResponse (.Error e)).error = some e.error ∧
    (rawResponseFromResponse (.Error e)).servers = none ∧
    (rawResponseFromResponse (.Error e)).cooldown = none := by
  intro s e
  exact ⟨rfl, rfl, rfl, rfl, rfl, rfl, rfl, rfl⟩

/-! # Helper lemmas: query pair membership -/

theorem mem_flagPairs {k v n : String} {b : Bool} :
    ((k, v) ∈ (if b then [(n, "true")] else ([] : List (String × String)))) ↔
      (b = true ∧ k = n ∧ v = "true") := by
  cases b <;> simp [and_assoc]

theorem mem_idPairs {k v : String} {o : Option Nat} :
    ((k, v) ∈ (match o with
      | some i => [("id", natDecString i)]
      | none => ([] : List (String × String)))) ↔
      (∃ i, o = some i ∧ k = "id" ∧ v = natDecString i) := by
  cases o <;> simp [and_assoc, eq_comm]

theorem mem_keyPairs {k v : String} {o : Option String} :
    ((k, v) ∈ (match o with
      | some s => [("key", s)]
      | none => ([] : List (String × String)))) ↔
      (∃ s, o = some s ∧ k = "key" ∧ v = s) := by
  cases o <;> simp [and_assoc, eq_comm]

/-! # Claim theorems: query builder and ip lookup -/

/-- C7: only set/true parameters are appended to the query string — for
every parameter set, an `id` pair is present exactly when `id` is set
(printed in decimal), a `key` pair exactly when `key` is set (carrying
it), and each of the nine feature-flag pairs exactly when its flag is
`true`, always with the literal value `"true"` (a false flag is omitted
entirely, never encoded as `"false"`); nothing with any other key is
ever appended; concretely, with `players` true, `info` false, and no
`id`/`key`, the produced pairs are exactly `players=true`, with no `id`,
`key` or `info` pair. -/
theorem claim_query_builder : ∀ (p : RequestParameters) (v : String),
    (("id", v) ∈ buildQueryPairs p ↔ ∃ i, p.id = some i ∧ v = natDecString i) ∧
    (("key", v) ∈ buildQueryPairs p ↔ p.key = some v) ∧
    (("lo", v) ∈ buildQueryPairs p ↔ p.last_online = true ∧ v = "true") ∧
    (("players", v) ∈ buildQueryPairs p ↔ p.players = true ∧ v = "true") ∧
    (("list", v) ∈ buildQueryPairs p ↔ p.list = true ∧ v = "true") ∧
    (("info", v) ∈ buildQueryPairs p ↔ p.info = true ∧ v = "true") ∧
    (("pastebin", v) ∈ buildQueryPairs p ↔ p.pastebin = true ∧ v = "true") ∧
    (("version", v) ∈ buildQueryPairs p ↔ p.version = true ∧ v = "true") ∧
    (("flags", v) ∈ buildQueryPairs p ↔ p.flags = true ∧ v = "true") ∧
    (("nicknames", v) ∈ buildQueryPairs p ↔ p.nicknames = true ∧ v = "true") ∧
    (("online", v) ∈ buildQueryPairs p ↔ p.online = true ∧ v = "true") ∧
    (∀ k w, (k, w) ∈ buildQueryPairs p → k = "id" ∨ k = "key" ∨
      ((k = "lo" ∨ k = "players" ∨ k = "list" ∨ k = "info" ∨ k = "pastebin" ∨
        k = "version" ∨ k = "flags" ∨ k = "nicknames" ∨ k = "online") ∧ w = "true")) ∧
    buildQueryPairs { id := none, key := none, last_online := false, players := true,
                      list := false, info := false, pastebin := false, version := false,
                      flags := false, nicknames := false, online := false } =
      [("players", "true")] := by
  intro p v
  refine ⟨?_, ?_, ?_, ?_, ?_, ?_, ?_, ?_, ?_, ?_, ?_, ?_, by rfl⟩
  · simp [buildQueryPairs, List.mem_append, mem_flagPairs, mem_idPairs, mem_keyPairs]
  · simp [buildQueryPairs, List.mem_append, mem_flagPairs, mem_idPairs, mem_keyPairs]
  · simp [buildQueryPairs, List.mem_append, mem_flagPairs, mem_idPairs, mem_keyPairs]
  · simp [buildQueryPairs, List.mem_append, mem_flagPairs, mem_idPairs, mem_keyPairs]
  · simp [buildQueryPairs, List.mem_append, mem_flagPairs, mem_idPairs, mem_keyPairs]
  · simp [buildQueryPairs, List.mem_append, mem_flagPairs, mem_idPairs, mem_keyPairs]
  · simp [buildQueryPairs, List.mem_append, mem_flagPairs, mem_idPairs, mem_keyPairs]
  · simp [buildQueryPairs, List.mem_append, mem_flagPairs, mem_idPairs, mem_keyPairs]
  · simp [buildQueryPairs, List.mem_append, mem_flagPairs, mem_idPairs, mem_keyPairs]
  · simp [buildQueryPairs, List.mem_append, mem_flagPairs, mem_idPairs, mem_keyPairs]
  · simp [buildQueryPairs, List.mem_append, mem_flagPairs, mem_idPairs, mem_keyPairs]
  · intro k w hmem
    simp only [buildQueryPairs, List.mem_append, mem_flagPairs, mem_idPairs,
      mem_keyPairs, or_assoc] at hmem
    rcases hmem with ⟨i, _, hk, _⟩ | ⟨s2, _, hk, _⟩ | h | h | h | h | h | h | h | h | h
    · exact Or.inl hk
    · exact Or.inr (Or.inl hk)
    · exact Or.inr (Or.inr ⟨Or.inl h.2.1, h.2.2⟩)
    · exact Or.inr (Or.inr ⟨Or.inr (Or.inl h.2.1), h.2.2⟩)
    · exact Or.inr (Or.inr ⟨Or.inr (Or.inr (Or.inl h.2.1)), h.2.2⟩)
    · exact Or.inr (Or.inr ⟨Or.inr (Or.inr (Or.inr (Or.inl h.2.1))), h.2.2⟩)
    · exact Or.inr (Or.inr ⟨Or.inr (Or.inr (Or.inr (Or.inr (Or.inl h.2.1)))), h.2.2⟩)
    · exact Or.inr (Or.inr
        ⟨Or.inr (Or.inr (Or.inr (Or.inr (Or.inr (Or.inl h.2.1))))), h.2.2⟩)
    · exact Or.inr (Or.inr
        ⟨Or.inr (Or.inr (Or.inr (Or.inr (Or.inr (Or.inr (Or.inl h.2.1)))))), h.2.2⟩)
    · exact Or.inr (Or.inr
        ⟨Or.inr (Or.inr (Or.inr (Or.inr (Or.inr (Or.inr (Or.inr (Or.inl h.2.1))))))),
         h.2.2⟩)
    · exact Or.inr (Or.inr
        ⟨Or.inr (Or.inr (Or.inr (Or.inr (Or.inr (Or.inr (Or.inr (Or.inr h.2.1))))))),
         h.2.2⟩)

/-- C8: `ip::get` returns the parsed address exactly when the transport
produced a body that is a valid IPv4 or IPv6 literal, fails with
`AddrParseError` exactly when the body is not such a literal, fails with
`ReqwestError` exactly when either transport step failed, and no other
outcome exists; `"127.0.0.1"` and `"::1"` parse, `"scpslgame.com"` does
not. -/
theorem claim_ip_lookup : ∀ (e : ReqwestErr) (s : String),
    ipGet (.getError e) = .error (.ReqwestError e) ∧
    ipGet (.textError e) = .error (.ReqwestError e) ∧
    (∀ ip, ipGet (.text s) = .ok ip ↔ ipAddrFromStr s = some ip) ∧
    (ipGet (.text s) = .error .AddrParseError ↔ ipAddrFromStr s = none) ∧
    (∀ e2, ipGet (.text s) ≠ .error (.ReqwestError e2)) ∧
    ipAddrFromStr "127.0.0.1" = some (.v4 127 0 0 1) ∧
    ipAddrFromStr "::1" = some (.v6 [0, 0, 0, 0, 0, 0, 0, 1]) ∧
    ipAddrFromStr "scpslgame.com" = none := by
  intro e s
  refine ⟨rfl, rfl, ?_, ?_, ?_, by decide, by decide, by decide⟩
  · intro ip
    cases h : ipAddrFromStr s <;> simp [ipGet, h]
  · cases h : ipAddrFromStr s <;> simp [ipGet, h]
  · intro e2
    cases h : ipAddrFromStr s <;> simp [ipGet, h]

/-! # Claim theorems: response conversion error handling (C3) -/

/-- C3 counterexample: on the success path with `cooldown`/`servers`
absent the Wire → Domain response conversion does **not** produce a typed
`MalformedPayload` error value — the crate defines no such error and the
`From` impl has no error channel at all; the `unwrap`s panic, so the
conversion aborts with no value (`none` in the panic model). -/
theorem claim_response_malformed_counterexample :
    responseFromRaw { success := true, error := none, servers := none, cooldown := none } =
      none ∧
    responseFromRaw { success := true, error := none, servers := some [],
                      cooldown := none } = none ∧
    responseFromRaw { success := true, error := none, servers := none,
                      cooldown := some 30 } = none := by
  exact ⟨rfl, rfl, rfl⟩

/-- C3 (amended): the Wire → Domain response conversion selects the
`Error` variant exactly when the wire error field is present; when the
error field is absent, `cooldown` and `servers` are required, and if
either is missing the conversion **panics** (aborts with no value — no
typed `MalformedPayload` error value exists in the crate); when all are
present it builds the `Success` value from the converted servers. -/
theorem claim_response_error_selection : ∀ raw : RawResponse,
    ((∃ e, responseFromRaw raw = some (.Error e)) ↔ raw.error.isSome) ∧
    (raw.error = none → (raw.cooldown = none ∨ raw.servers = none) →
      responseFromRaw raw = none) ∧
    (∀ e, raw.error = some e → responseFromRaw raw = some (.Error { error := e })) ∧
    (raw.error = none → ∀ c l dl, raw.cooldown = some c → raw.servers = some l →
      mapServerInfos l = some dl →
      responseFromRaw raw = some (.Success { cooldown := c, servers := dl })) := by
  intro raw
  obtain ⟨succ, err, srv, cd⟩ := raw
  cases err with
  | some e =>
    refine ⟨?_, ?_, ?_, ?_⟩
    · simp [responseFromRaw]
    · intro h
      exact absurd h (by simp)
    · intro e2 he2
      simp only [Option.some.injEq] at he2
      subst he2
      rfl
    · intro h
      exact absurd h (by simp)
  | none =>
    refine ⟨?_, ?_, ?_, ?_⟩
    · cases cd with
      | none => simp [responseFromRaw]
      | some c =>
        cases srv with
        | none => simp [responseFromRaw]
        | some l =>
          cases hm : mapServerInfos l <;>
            simp [responseFromRaw, hm]
    · intro _ hor
      rcases hor with hcd | hsrv
      · simp only at hcd
        subst hcd
        rfl
      · simp only at hsrv
        subst hsrv
        cases cd <;> rfl
    · intro e2 he2
      exact absurd he2 (by simp)
    · intro _ c l dl hcd hsrv hm
      simp only [Option.some.injEq] at hcd hsrv
      subst hcd
      subst hsrv
      simp [responseFromRaw, hm]

/-- C3 witness: the amended theorem applied at a concrete wire response
(success flag set, servers present, cooldown missing): the conversion
panics. -/
theorem claim_response_error_selection_witness :
    responseFromRaw { success := true, error := none, servers := some [],
                      cooldown := none } = none :=
  (claim_response_error_selection
    { success := true, error := none, servers := some [], cooldown := none }).2.1
    rfl (Or.inl rfl)

/-! # Helper lemmas: Except bind reduction and the unreachable cooldown arm -/

@[simp] theorem except_bind_error {ε α β : Type} (e : ε) (f : α → Except ε β) :
    ((Except.error e : Except ε α) >>= f) = .error e := rfl

@[simp] theorem except_bind_ok {ε α β : Type} (a : α) (f : α → Except ε β) :
    ((Except.ok a : Except ε α) >>= f) = f a := rfl

/-- The `cooldown` slot of the `RawResponse` visitor can never be filled:
its key arm is shadowed by the `success` arm for the same renamed key
`"Success"`, so every successfully deserialized `RawResponse` has
`cooldown = none`. -/
theorem rawResponseFields_cooldown_none :
    ∀ (fields : List (String × Json)) succ err srv raw,
      rawResponseFields fields succ err srv none = .ok raw → raw.cooldown = none := by
  intro fields
  induction fields with
  | nil =>
    intro succ err srv raw h
    cases succ with
    | some s =>
      simp only [rawResponseFields, Except.ok.injEq] at h
      rw [← h]
      rfl
    | none => simp [rawResponseFields] at h
  | cons kv rest ih =>
    intro succ err srv raw h
    obtain ⟨k, v⟩ := kv
    by_cases h1 : k = "Success"
    · subst h1
      simp only [rawResponseFields, reduceIte] at h
      cases succ with
      | some s => exact absurd h (by simp)
      | none =>
        cases hb : deBool v with
        | error e => rw [hb] at h; exact absurd h (by simp)
        | ok b => rw [hb] at h; simp only [except_bind_ok] at h; exact ih _ _ _ _ h
    · by_cases h2 : k = "Error"
      · subst h2
        simp only [rawResponseFields, if_neg h1, String.reduceEq, reduceIte] at h
        cases err with
        | some o => exact absurd h (by simp)
        | none =>
          cases hb : deOpt deString v with
          | error e => rw [hb] at h; exact absurd h (by simp)
          | ok o => rw [hb] at h; simp only [except_bind_ok] at h; exact ih _ _ _ _ h
      · by_cases h3 : k = "Servers"
        · subst h3
          simp only [rawResponseFields, if_neg h1, if_neg h2, String.reduceEq,
            reduceIte] at h
          cases srv with
          | some o => exact absurd h (by simp)
          | none =>
            cases hb : deOpt (deArr deserializeRawServerInfo) v with
            | error e => rw [hb] at h; exact absurd h (by simp)
            | ok o => rw [hb] at h; simp only [except_bind_ok] at h; exact ih _ _ _ _ h
        · simp only [rawResponseFields, if_neg h1, if_neg h2, if_neg h3] at h
          exact ih _ _ _ _ h

/-! # Claim theorems: wire response deserialization (C4) -/

/-- C4 counterexample: the wire text
`{"Success": true, "Servers": [...], "Success": 30}` does **not**
deserialize to a `Success` with cooldown 30: the duplicated key
`"Success"` maps to the boolean `success` field both times (the generated
key match tries field names in declaration order, shadowing the renamed
`cooldown` arm), so serde reports a duplicate-field error and `FromStr`
fails. -/
theorem claim_response_parse_counterexample :
    responseFromJson
      (.obj [("Success", .bool true), ("Servers", .arr []), ("Success", .num 30)]) =
      .error (.duplicateField "Success") ∧
    ∀ r, responseFromJson
      (.obj [("Success", .bool true), ("Servers", .arr []), ("Success", .num 30)]) ≠
      .ok (some (.Success r)) := by
  refine ⟨rfl, ?_⟩
  intro r h
  have hcontra : (Except.error (DeError.duplicateField "Success") :
      Except DeError (Option Response)) = .ok (some (.Success r)) := h
  exact Except.noConfusion hcontra

/-- C4 (amended): `{"Success": false, "Error": "rate limited"}` parses to
`Failure` with message `"rate limited"`; the duplicate-key text
`{"Success": true, "Servers": [], "Success": 30}` fails to parse with a
duplicate-field error, because both the success flag and the cooldown are
renamed to `"Success"` and the first (boolean) arm shadows the second;
consequently a parsed `RawResponse` never carries a cooldown, and on the
success path (error field absent) the subsequent conversion always
panics on `cooldown.unwrap()`. -/
theorem claim_response_parse_behavior :
    responseFromJson (.obj [("Success", .bool false), ("Error", .str "rate limited")]) =
      .ok (some (.Error { error := "rate limited" })) ∧
    responseFromJson
      (.obj [("Success", .bool true), ("Servers", .arr []), ("Success", .num 30)]) =
      .error (.duplicateField "Success") ∧
    (∀ j raw, deserializeRawResponse j = .ok raw →
      raw.cooldown = none ∧ (raw.error = none → responseFromRaw raw = none)) := by
  refine ⟨rfl, rfl, ?_⟩
  intro j raw h
  have hcd : raw.cooldown = none := by
    cases j with
    | obj fields => exact rawResponseFields_cooldown_none fields none none none raw h
    | null => exact absurd h (by simp [deserializeRawResponse])
    | bool b => exact absurd h (by simp [deserializeRawResponse])
    | num n => exact absurd h (by simp [deserializeRawResponse])
    | str s => exact absurd h (by simp [deserializeRawResponse])
    | arr es => exact absurd h (by simp [deserializeRawResponse])
  refine ⟨hcd, ?_⟩
  intro herr
  obtain ⟨succ, err, srv, cd⟩ := raw
  simp only at herr hcd
  subst herr
  subst hcd
  rfl

/-- C4 witness: the amended theorem applied at the concrete wire object
`{"Success": true, "Servers": []}`: it deserializes with no cooldown and
the conversion of the resulting raw response panics. -/
theorem claim_response_parse_behavior_witness :
    responseFromRaw { success := true, error := none, servers := some [],
                      cooldown := none } = none :=
  (claim_response_parse_behavior.2.2
    (.obj [("Success", .bool true), ("Servers", .arr [])])
    { success := true, error := none, servers := some [], cooldown := none }
    rfl).2 rfl

/-! # Claim theorems: player-count conversion (C5) -/

/-- C5 counterexample: the code does not split on the first `'/'` only
and does not return a typed error.  On `"1/2/3"` the spec's reading
fails (the second part `"2/3"` is not an integer) but the code succeeds
with `{current: 1, max: 2}`, silently dropping the `"3"`; and on `"5"`
the code panics (producing no value) instead of returning a
`CountFormatError` value. -/
theorem claim_count_counterexample :
    parsePlayersCount "1/2/3" = some { max_players := 2, current_players := 1 } ∧
    parsePlayersCountSpec "1/2/3" = .error .CountFormatError ∧
    parsePlayersCount "5" = none := by
  exact ⟨rfl, rfl, rfl⟩

/-- C5 (amended): the count conversion splits the wire string on *every*
`'/'` and uses the first two chunks, ignoring any later ones; it succeeds
with `{current, max}` when both chunks parse as nonnegative 32-bit
integers (no `current ≤ max` validation, e.g. `"30/5"`), and it
**panics** — producing no value, there is no typed `CountFormatError` in
the crate — when fewer than two chunks exist or a chunk fails to parse,
e.g. on `"abc/20"`, `"5"` and `""`. -/
theorem claim_count_parsing : ∀ (s : String) (pc : PlayersCount),
    (parsePlayersCount s = some pc ↔
      ∃ a b rest, splitOnChar '/' s.data = a :: b :: rest ∧
        parseU32 a = some pc.current_players ∧ parseU32 b = some pc.max_players) ∧
    parsePlayersCount "5/20" = some { max_players := 20, current_players := 5 } ∧
    parsePlayersCount "30/5" = some { max_players := 5, current_players := 30 } ∧
    parsePlayersCount "1/2/3" = some { max_players := 2, current_players := 1 } ∧
    parsePlayersCount "abc/20" = none ∧
    parsePlayersCount "5" = none ∧
    parsePlayersCount "" = none := by
  intro s pc
  refine ⟨?_, rfl, rfl, rfl, rfl, rfl, rfl⟩
  obtain ⟨mx0, cur0⟩ := pc
  unfold parsePlayersCount
  rcases hsplit : splitOnChar '/' s.data with _ | ⟨a, _ | ⟨b, rest⟩⟩
  · simp
  · simp
  · cases ha : parseU32 a with
    | none => simp [ha]
    | some cur =>
      cases hb : parseU32 b with
      | none => simp [ha, hb]
      | some mx =>
        simp only [ha, hb, Option.bind_eq_bind, Option.some_bind, Option.some.injEq,
          PlayersCount.mk.injEq, List.cons.injEq]
        constructor
        · rintro ⟨hmx, hcur⟩
          exact ⟨a, b, rest, ⟨rfl, rfl, rfl⟩, by rw [ha, hcur], by rw [hb, hmx]⟩
        · rintro ⟨a2, b2, rest2, ⟨ha2, hb2, -⟩, hcur, hmx⟩
          subst ha2
          subst hb2
          rw [ha] at hcur
          rw [hb] at hmx
          simp only [Option.some.injEq] at hcur hmx
          exact ⟨hmx, hcur⟩

/-! # Helper lemmas: date parsing (C6) -/

theorem mkNaiveDate_valid {y : Int} {m d : Nat} {dd : DomainDate}
    (h : mkNaiveDate y m d = some dd) : dd.Valid := by
  unfold mkNaiveDate at h
  split at h
  · next hc =>
    simp only [Option.some.injEq] at h
    subst h
    exact hc
  · exact absurd h (by simp)

/-- Only valid calendar dates (in chrono's range) can come out of the
embedded `parse_from_str`. -/
theorem parseDate_valid : ∀ s d, parseDate s = some d → d.Valid := by
  intro s d h
  unfold parseDate at h
  simp only [Option.bind_eq_bind, Option.bind_eq_some] at h
  obtain ⟨⟨y, cs1⟩, -, h⟩ := h
  obtain ⟨cs2, -, h⟩ := h
  obtain ⟨⟨m, cs4⟩, -, h⟩ := h
  obtain ⟨cs5, -, h⟩ := h
  obtain ⟨⟨dy, cs7⟩, -, h⟩ := h
  split at h
  · exact mkNaiveDate_valid h
  · exact absurd h (by simp)

/-- A panicking date parse aborts the whole record conversion with no
value. -/
theorem serverInfoFromRaw_date_panic : ∀ (r : RawServerInfo) s,
    r.last_online = some s → parseDate s = none → serverInfoFromRaw r = none := by
  intro r s hlo hp
  simp [serverInfoFromRaw, hlo, optTraverse, hp]

/-! # Claim theorems: date conversion (C6) -/

/-- C6 counterexample: the date conversion does not fail with a typed
`DateFormatError` — the crate defines no such type and the conversion
panics instead, producing no value at all on `"2023-02-30"`; moreover not
every deviation from the fixed `YYYY-MM-DD` pattern fails: chrono's
`%Y-%m-%d` accepts 1–2 digit months and days, so the deviating
`"2023-2-28"` parses successfully. -/
theorem claim_date_counterexample :
    parseDate "2023-2-28" = some { year := 2023, month := 2, day := 28 } ∧
    parseDate "2023-02-30" = none ∧
    serverInfoFromRaw { id := 0, port := 0, last_online := some "2023-02-30",
                        players_count := none, players := none, info := none,
                        friendly_fire := none, whitelist := none, modded := none,
                        mods := none, suppress := none, auto_suppress := none } =
      none := by
  exact ⟨by decide, by decide, by decide⟩

/-- C6 (amended): the date conversion parses a year (optionally signed,
else up to four digits), `'-'`, a 1–2 digit month, `'-'`, a 1–2 digit day
— whitespace before each number is tolerated by the underlying chrono
parser — requiring the whole input to be consumed and the result to be a
valid calendar date: `"2023-02-28"` succeeds, while `"2023-02-30"`
(impossible day), `"2023-13-01"` (impossible month), `"2023/02/28"`
(wrong separators) and `"2023-02-28x"` (trailing characters) all fail;
only valid dates can be produced; and a failed parse makes the record
conversion **panic**, producing no value (there is no typed
`DateFormatError` in the crate). -/
theorem claim_date_parsing :
    (∀ s d, parseDate s = some d → d.Valid) ∧
    parseDate "2023-02-28" = some { year := 2023, month := 2, day := 28 } ∧
    parseDate "2023-02-30" = none ∧
    parseDate "2023-13-01" = none ∧
    parseDate "2023/02/28" = none ∧
    parseDate "2023-02-28x" = none ∧
    (∀ (r : RawServerInfo) s, r.last_online = some s → parseDate s = none →
      serverInfoFromRaw r = none) := by
  exact ⟨parseDate_valid, by decide, by decide, by decide, by decide, by decide,
    serverInfoFromRaw_date_panic⟩

/-- C6 witness: the amended theorem applied at `"2023-02-28"` (validity
of the parsed date) and at a concrete record with `"2023-02-30"` (the
conversion panics). -/
theorem claim_date_parsing_witness :
    DomainDate.Valid { year := 2023, month := 2, day := 28 } ∧
    serverInfoFromRaw { id := 7, port := 7777, last_online := some "2023-02-30",
                        players_count := none, players := none, info := none,
                        friendly_fire := none, whitelist := none, modded := none,
                        mods := none, suppress := none, auto_suppress := none } =
      none :=
  ⟨claim_date_parsing.1 "2023-02-28" { year := 2023, month := 2, day := 28 } (by decide),
   claim_date_parsing.2.2.2.2.2.2
     { id := 7, port := 7777, last_online := some "2023-02-30",
       players_count := none, players := none, info := none, friendly_fire := none,
       whitelist := none, modded := none, mods := none, suppress := none,
       auto_suppress := none } "2023-02-30" rfl (by decide)⟩

/-! # Helper lemmas: split and count round trip (towards C1) -/

theorem isAsciiDigit_ne_slash {c : Char} (h : isAsciiDigit c = true) : c ≠ '/' := by
  intro hc
  subst hc
  exact absurd h (by decide)

theorem isAsciiDigit_ne_dash {c : Char} (h : isAsciiDigit c = true) : c ≠ '-' := by
  intro hc
  subst hc
  exact absurd h (by decide)

theorem splitOnChar_no_sep {sep : Char} : ∀ {cs : List Char}, (∀ c ∈ cs, c ≠ sep) →
    splitOnChar sep cs = [cs] := by
  intro cs
  induction cs with
  | nil => intro _; rfl
  | cons c t ih =>
    intro h
    have hc : c ≠ sep := h c (List.mem_cons_self c t)
    have ht := ih fun x hx => h x (List.mem_cons_of_mem c hx)
    simp only [splitOnChar, if_neg hc, ht]

theorem splitOnChar_append {sep : Char} : ∀ (a b : List Char), (∀ c ∈ a, c ≠ sep) →
    splitOnChar sep (a ++ sep :: b) = a :: splitOnChar sep b := by
  intro a
  induction a with
  | nil =>
    intro b _
    simp [splitOnChar]
  | cons c t ih =>
    intro b h
    have hc : c ≠ sep := h c (List.mem_cons_self c t)
    have ht := ih b fun x hx => h x (List.mem_cons_of_mem c hx)
    simp only [List.cons_append, splitOnChar, if_neg hc, List.append_eq, ht]

/-- The Domain → Wire → Domain round trip on player counts. -/
theorem parsePlayersCount_format (pc : PlayersCount)
    (hc : pc.current_players < 4294967296) (hm : pc.max_players < 4294967296) :
    parsePlayersCount (formatPlayersCount pc) = some pc := by
  obtain ⟨mx, cur⟩ := pc
  simp only at hc hm
  have hdata : (formatPlayersCount { max_players := mx, current_players := cur }).data =
      natDecDigits cur ++ '/' :: natDecDigits mx := rfl
  unfold parsePlayersCount
  rw [hdata, splitOnChar_append _ _ fun c hc2 =>
      isAsciiDigit_ne_slash (natDecDigits_all_digits cur c hc2),
    splitOnChar_no_sep fun c hc2 =>
      isAsciiDigit_ne_slash (natDecDigits_all_digits mx c hc2)]
  simp [parseU32_natDecDigits cur hc, parseU32_natDecDigits mx hm]

/-! # Helper lemmas: date format/parse round trip (towards C1) -/

theorem isWsChar_of_digit {c : Char} (h : isAsciiDigit c = true) : isWsChar c = false := by
  simp only [isAsciiDigit, Bool.and_eq_true, decide_eq_true_eq] at h
  simp only [isWsChar, Bool.or_eq_false_iff, Bool.and_eq_false_iff,
    decide_eq_false_iff_not]
  omega

theorem dropWhile_cons_of_head {c : Char} {t : List Char} (h : isWsChar c = false) :
    (c :: t).dropWhile isWsChar = c :: t := by
  simp [List.dropWhile_cons, h]

theorem takeDigitsUpTo_exact : ∀ (ds rest : List Char), (∀ c ∈ ds, isAsciiDigit c = true) →
    takeDigitsUpTo ds.length (ds ++ rest) = (ds, rest) := by
  intro ds
  induction ds with
  | nil => intro rest _; rfl
  | cons c t ih =>
    intro rest h
    have hc := h c (List.mem_cons_self c t)
    simp only [List.length_cons, List.cons_append, takeDigitsUpTo, hc, if_true,
      List.append_eq, ih rest fun x hx => h x (List.mem_cons_of_mem c hx)]

theorem takeDigitsAll_stop : ∀ (ds rest : List Char), (∀ c ∈ ds, isAsciiDigit c = true) →
    (rest = [] ∨ ∃ c2 t2, rest = c2 :: t2 ∧ isAsciiDigit c2 = false) →
    takeDigitsAll (ds ++ rest) = (ds, rest) := by
  intro ds
  induction ds with
  | nil =>
    intro rest _ hrest
    rcases hrest with rfl | ⟨c2, t2, rfl, hc2⟩
    · rfl
    · simp [takeDigitsAll, hc2]
  | cons c t ih =>
    intro rest h hrest
    have hc := h c (List.mem_cons_self c t)
    simp only [List.cons_append, takeDigitsAll, hc, if_true, List.append_eq,
      ih rest (fun x hx => h x (List.mem_cons_of_mem c hx)) hrest]

theorem foldl_digits_replicate_zero : ∀ (k : Nat) (ds : List Char),
    List.foldl (fun a c => a * 10 + (c.toNat - 48)) 0 (List.replicate k '0' ++ ds) =
      List.foldl (fun a c => a * 10 + (c.toNat - 48)) 0 ds := by
  intro k
  induction k with
  | zero => intro ds; rfl
  | succ k ih =>
    intro ds
    rw [List.replicate_succ, List.cons_append, List.foldl_cons]
    have h0 : (0 : Nat) * 10 + ('0'.toNat - 48) = 0 := by decide
    rw [h0, ih]

theorem digitsToNat_padZeros (w n : Nat) : digitsToNat (padZeros w (natDecDigits n)) = n := by
  unfold digitsToNat padZeros
  rw [foldl_digits_replicate_zero]
  have := digitsToNat_natDecDigits n
  unfold digitsToNat at this
  exact this

theorem padZeros_all_digits (w n : Nat) :
    ∀ c ∈ padZeros w (natDecDigits n), isAsciiDigit c = true := by
  intro c hcmem
  unfold padZeros at hcmem
  rw [List.mem_append] at hcmem
  rcases hcmem with hcm | hcm
  · rw [List.eq_of_mem_replicate hcm]
    decide
  · exact natDecDigits_all_digits n c hcm

theorem padZeros_ne_nil (w n : Nat) : padZeros w (natDecDigits n) ≠ [] := by
  unfold padZeros
  simp [natDecDigits_ne_nil]

theorem padZeros_head_digit (w n : Nat) :
    ∃ c t, padZeros w (natDecDigits n) = c :: t ∧ isAsciiDigit c = true := by
  cases hp : padZeros w (natDecDigits n) with
  | nil => exact absurd hp (padZeros_ne_nil w n)
  | cons c t =>
    refine ⟨c, t, rfl, padZeros_all_digits w n c ?_⟩
    rw [hp]
    exact List.mem_cons_self c t

theorem padZeros_length_eq (w n : Nat) (hw : 1 ≤ w) (hn : n < 10 ^ w) :
    (padZeros w (natDecDigits n)).length = w := by
  unfold padZeros
  rw [List.length_append, List.length_replicate]
  have := natDecDigits_length_le w n hw hn
  omega

theorem takeDigitsUpTo_of_length (w : Nat) (ds rest : List Char) (hlen : ds.length = w)
    (h : ∀ c ∈ ds, isAsciiDigit c = true) :
    takeDigitsUpTo w (ds ++ rest) = (ds, rest) := by
  subst hlen
  exact takeDigitsUpTo_exact ds rest h

theorem scanNumberUpTo_pad (w n : Nat) (rest : List Char) (hw : 1 ≤ w)
    (hn : n < 10 ^ w) :
    scanNumberUpTo w (padZeros w (natDecDigits n) ++ rest) = some (n, rest) := by
  have hlen := padZeros_length_eq w n hw hn
  unfold scanNumberUpTo
  rw [takeDigitsUpTo_of_length w _ rest hlen (padZeros_all_digits w n)]
  obtain ⟨c, t, heq, -⟩ := padZeros_head_digit w n
  have hne : (padZeros w (natDecDigits n)).isEmpty = false := by
    rw [heq]
    rfl
  have hval : digitsToNat (padZeros w (natDecDigits n)) = n := digitsToNat_padZeros w n
  simp [hne, hval]

theorem scanNumberAll_digits (ds rest : List Char) (hds : ds ≠ [])
    (h : ∀ c ∈ ds, isAsciiDigit c = true)
    (hrest : rest = [] ∨ ∃ c2 t2, rest = c2 :: t2 ∧ isAsciiDigit c2 = false) :
    scanNumberAll (ds ++ rest) = some (digitsToNat ds, rest) := by
  unfold scanNumberAll
  rw [takeDigitsAll_stop ds rest h hrest]
  obtain ⟨c, t, heq⟩ : ∃ c t, ds = c :: t := by
    cases ds with
    | nil => exact absurd rfl hds
    | cons c t => exact ⟨c, t, rfl⟩
  have hne : ds.isEmpty = false := by
    rw [heq]
    rfl
  simp [hne]

theorem formatYear_head (y : Int) :
    ∃ c t, formatYear y = c :: t ∧ isWsChar c = false := by
  unfold formatYear
  by_cases hneg : y < 0
  · exact ⟨'-', _, by rw [if_pos hneg], by decide⟩
  · by_cases hlt : y < 10000
    · obtain ⟨c, t, heq, hdig⟩ := padZeros_head_digit 4 y.toNat
      exact ⟨c, t, by rw [if_neg hneg, if_pos hlt, heq], isWsChar_of_digit hdig⟩
    · exact ⟨'+', _, by rw [if_neg hneg, if_neg hlt], by decide⟩

theorem parseYearNum_cons (c : Char) (t : List Char) : parseYearNum (c :: t) =
    if c = '-' then (scanNumberAll t).map fun p => (-(p.1 : Int), p.2)
    else if c = '+' then (scanNumberAll t).map fun p => ((p.1 : Int), p.2)
    else (scanNumberUpTo 4 (c :: t)).map fun p => ((p.1 : Int), p.2) := rfl

theorem expectChar_cons (c x : Char) (t : List Char) :
    expectChar c (x :: t) = if x = c then some t else none := rfl

theorem parseYearNum_format (y : Int) (rest : List Char) (hy1 : -262144 ≤ y)
    (hy2 : y ≤ 262143) (hrest : ∃ t2, rest = '-' :: t2) :
    parseYearNum (formatYear y ++ rest) = some (y, rest) := by
  obtain ⟨t2, rfl⟩ := hrest
  have hstop : ('-' :: t2 = ([] : List Char)) ∨
      ∃ c2 t3, '-' :: t2 = c2 :: t3 ∧ isAsciiDigit c2 = false :=
    Or.inr ⟨'-', t2, rfl, by decide⟩
  unfold formatYear
  by_cases hneg : y < 0
  · rw [if_pos hneg, List.cons_append, parseYearNum_cons, if_pos rfl]
    rw [scanNumberAll_digits _ _ (padZeros_ne_nil 4 y.natAbs)
      (padZeros_all_digits 4 y.natAbs) hstop]
    simp only [Option.map_some']
    rw [digitsToNat_padZeros]
    have : -(y.natAbs : Int) = y := by omega
    rw [this]
  · by_cases hlt : y < 10000
    · rw [if_neg hneg, if_pos hlt]
      obtain ⟨c, t, heq, hdig⟩ := padZeros_head_digit 4 y.toNat
      rw [heq, List.cons_append, parseYearNum_cons,
        if_neg (isAsciiDigit_ne_dash hdig), if_neg (isAsciiDigit_ne_plus hdig)]
      rw [← List.cons_append, ← heq,
        scanNumberUpTo_pad 4 y.toNat _ (by omega) (by omega)]
      simp only [Option.map_some']
      have : (y.toNat : Int) = y := by omega
      rw [this]
    · rw [if_neg hneg, if_neg hlt, List.cons_append, parseYearNum_cons,
        if_neg (by decide), if_pos rfl]
      rw [scanNumberAll_digits _ _ (natDecDigits_ne_nil y.toNat)
        (natDecDigits_all_digits y.toNat) hstop]
      simp only [Option.map_some']
      rw [digitsToNat_natDecDigits]
      have : (y.toNat : Int) = y := by omega
      rw [this]

theorem daysInMonth_le (y : Int) (m : Nat) : daysInMonth y m ≤ 31 := by
  unfold daysInMonth
  split <;> first | omega | (split <;> omega)

/-- The Domain → Wire → Domain round trip on dates: formatting a valid
`chrono` date with `%Y-%m-%d` and parsing it back yields the same
date. -/
theorem parseDate_format (d : DomainDate) (h : d.Valid) :
    parseDate (formatDate d) = some d := by
  obtain ⟨y, m, dy⟩ := d
  obtain ⟨h1, h2, h3, h4, h5, h6⟩ := h
  simp only at h1 h2 h3 h4 h5 h6
  have hdaysle : daysInMonth y m ≤ 31 := daysInMonth_le y m
  have hdata : (formatDate { year := y, month := m, day := dy }).data =
      formatYear y ++ '-' :: (padZeros 2 (natDecDigits m) ++
        '-' :: padZeros 2 (natDecDigits dy)) := by
    show (formatYear y ++ '-' :: padZeros 2 (natDecDigits m) ++
        '-' :: padZeros 2 (natDecDigits dy)) = _
    simp [List.append_assoc]
  unfold parseDate
  rw [hdata]
  obtain ⟨c0, t0, hA, hc0⟩ := formatYear_head y
  rw [hA, List.cons_append, dropWhile_cons_of_head hc0, ← List.cons_append, ← hA]
  rw [parseYearNum_format y _ h5 h6 ⟨_, rfl⟩]
  simp only [Option.bind_eq_bind, Option.some_bind]
  have hexp1 : expectChar '-' ('-' :: (padZeros 2 (natDecDigits m) ++
      '-' :: padZeros 2 (natDecDigits dy))) =
      some (padZeros 2 (natDecDigits m) ++ '-' :: padZeros 2 (natDecDigits dy)) := by
    rw [expectChar_cons, if_pos rfl]
  rw [hexp1]
  simp only [Option.bind_eq_bind, Option.some_bind]
  obtain ⟨c1, t1, hB, hdig1⟩ := padZeros_head_digit 2 m
  rw [hB, List.cons_append, dropWhile_cons_of_head (isWsChar_of_digit hdig1),
    ← List.cons_append, ← hB]
  rw [scanNumberUpTo_pad 2 m _ (by omega) (by omega)]
  simp only [Option.bind_eq_bind, Option.some_bind]
  have hexp2 : expectChar '-' ('-' :: padZeros 2 (natDecDigits dy)) =
      some (padZeros 2 (natDecDigits dy)) := by
    rw [expectChar_cons, if_pos rfl]
  rw [hexp2]
  simp only [Option.bind_eq_bind, Option.some_bind]
  obtain ⟨c2, t2, hC, hdig2⟩ := padZeros_head_digit 2 dy
  rw [hC, dropWhile_cons_of_head (isWsChar_of_digit hdig2), ← hC]
  rw [show padZeros 2 (natDecDigits dy) = padZeros 2 (natDecDigits dy) ++ [] by simp]
  rw [scanNumberUpTo_pad 2 dy [] (by omega) (by omega)]
  simp only [Option.bind_eq_bind, Option.some_bind]
  simp only [List.isEmpty_nil, if_true]
  unfold mkNaiveDate
  rw [if_pos ⟨h1, h2, h3, h4, h5, h6⟩]

/-! # Helper lemmas: base64 round trip (towards C1) -/

theorem b64CharDec_b64Char : ∀ n, n < 64 → b64CharDec (b64Char n) = some n := by decide

theorem b64Char_ne_pad : ∀ n, n < 64 → b64Char n ≠ '=' := by decide

theorem b64encode_eq_nil_iff (bs : List Nat) : b64encode bs = [] ↔ bs = [] := by
  rcases bs with _ | ⟨a, _ | ⟨b, _ | ⟨c, rest⟩⟩⟩ <;> simp [b64encode]

/-- Induction along the three-byte chunks processed by base64. -/
theorem chunk3_induction {P : List Nat → Prop} (h0 : P []) (h1 : ∀ a, P [a])
    (h2 : ∀ a b, P [a, b])
    (h3 : ∀ a b c rest, P rest → P (a :: b :: c :: rest)) : ∀ l, P l
  | [] => h0
  | [a] => h1 a
  | [a, b] => h2 a b
  | a :: b :: c :: rest => h3 a b c rest (chunk3_induction h0 h1 h2 h3 rest)

/-- Decoding inverts encoding on byte sequences (`base64::decode` of
`base64::encode`). -/
theorem b64decode_b64encode : ∀ bs : List Nat, (∀ x ∈ bs, x < 256) →
    b64decode (b64encode bs) = some bs := by
  intro bs
  induction bs using chunk3_induction with
  | h0 => intro _; rfl
  | h1 a =>
    intro h
    have ha : a < 256 := h a (by simp)
    show b64decode [b64Char (a / 4), b64Char (a % 4 * 16), '=', '='] = some [a]
    simp only [b64decode, reduceIte, b64FinalTwo,
      b64CharDec_b64Char (a / 4) (by omega), b64CharDec_b64Char (a % 4 * 16) (by omega),
      Option.bind_eq_bind, Option.some_bind]
    rw [if_pos (show a % 4 * 16 % 16 = 0 by omega)]
    have : a / 4 * 4 + a % 4 * 16 / 16 = a := by omega
    rw [this]
  | h2 a b =>
    intro h
    have ha : a < 256 := h a (by simp)
    have hb : b < 256 := h b (by simp)
    show b64decode [b64Char (a / 4), b64Char (a % 4 * 16 + b / 16),
      b64Char (b % 16 * 4), '='] = some [a, b]
    simp only [b64decode, reduceIte, if_neg (b64Char_ne_pad (b % 16 * 4) (by omega)),
      b64FinalThree, b64CharDec_b64Char (a / 4) (by omega),
      b64CharDec_b64Char (a % 4 * 16 + b / 16) (by omega),
      b64CharDec_b64Char (b % 16 * 4) (by omega),
      Option.bind_eq_bind, Option.some_bind]
    rw [if_pos (show b % 16 * 4 % 4 = 0 by omega)]
    have e1 : a / 4 * 4 + (a % 4 * 16 + b / 16) / 16 = a := by omega
    have e2 : (a % 4 * 16 + b / 16) % 16 * 16 + b % 16 * 4 / 4 = b := by omega
    rw [e1, e2]
  | h3 a b c rest ih =>
    intro h
    have ha : a < 256 := h a (by simp)
    have hb : b < 256 := h b (by simp)
    have hc : c < 256 := h c (by simp)
    have hrest : ∀ x ∈ rest, x < 256 := fun x hx => h x (by simp [hx])
    have e1 : a / 4 * 4 + (a % 4 * 16 + b / 16) / 16 = a := by omega
    have e2 : (a % 4 * 16 + b / 16) % 16 * 16 + (b % 16 * 4 + c / 64) / 4 = b := by omega
    have e3 : (b % 16 * 4 + c / 64) % 4 * 64 + c % 64 = c := by omega
    show b64decode (b64Char (a / 4) :: b64Char (a % 4 * 16 + b / 16) ::
      b64Char (b % 16 * 4 + c / 64) :: b64Char (c % 64) :: b64encode rest) =
      some (a :: b :: c :: rest)
    rcases hr : b64encode rest with _ | ⟨hd, tl⟩
    · have hrnil : rest = [] := (b64encode_eq_nil_iff rest).mp hr
      subst hrnil
      show b64decode [b64Char (a / 4), b64Char (a % 4 * 16 + b / 16),
        b64Char (b % 16 * 4 + c / 64), b64Char (c % 64)] = some [a, b, c]
      simp only [b64decode, if_neg (b64Char_ne_pad (c % 64) (by omega)), b64Quad,
        b64CharDec_b64Char (a / 4) (by omega),
        b64CharDec_b64Char (a % 4 * 16 + b / 16) (by omega),
        b64CharDec_b64Char (b % 16 * 4 + c / 64) (by omega),
        b64CharDec_b64Char (c % 64) (by omega),
        Option.bind_eq_bind, Option.some_bind]
      rw [e1, e2, e3]
    · have hdec : b64decode (hd :: tl) = some rest := by
        rw [← hr]
        exact ih hrest
      simp only [b64decode, b64Quad,
        b64CharDec_b64Char (a / 4) (by omega),
        b64CharDec_b64Char (a % 4 * 16 + b / 16) (by omega),
        b64CharDec_b64Char (b % 16 * 4 + c / 64) (by omega),
        b64CharDec_b64Char (c % 64) (by omega),
        Option.bind_eq_bind, Option.some_bind, hdec]
      rw [e1, e2, e3]
      rfl

/-! # Helper lemmas: UTF-8 round trip (towards C1) -/

theorem char_toNat_valid (c : Char) :
    c.toNat < 55296 ∨ (57343 < c.toNat ∧ c.toNat < 1114112) := c.valid

theorem utf8EncodeChar_bytes_lt (c : Char) : ∀ x ∈ utf8EncodeChar c.toNat, x < 256 := by
  have hval := char_toNat_valid c
  intro x hx
  unfold utf8EncodeChar at hx
  split_ifs at hx with hc1 hc2 hc3
  · simp only [List.mem_singleton] at hx
    omega
  · simp only [List.mem_cons, List.not_mem_nil, or_false] at hx
    rcases hx with rfl | rfl <;> omega
  · simp only [List.mem_cons, List.not_mem_nil, or_false] at hx
    rcases hx with rfl | rfl | rfl <;> omega
  · simp only [List.mem_cons, List.not_mem_nil, or_false] at hx
    rcases hx with rfl | rfl | rfl | rfl <;> omega

theorem utf8Decode_cons (b : Nat) (bs : List Nat) :
    utf8Decode (b :: bs) =
      (if b < 128 then (utf8Decode bs).map fun cs => Char.ofNat b :: cs
      else if b < 194 then none
      else if b < 224 then
        match bs with
        | b1 :: bs2 =>
          if 128 ≤ b1 ∧ b1 < 192 then
            (utf8Decode bs2).map fun cs => Char.ofNat ((b - 192) * 64 + (b1 - 128)) :: cs
          else none
        | [] => none
      else if b < 240 then
        match bs with
        | b1 :: b2 :: bs3 =>
          if (128 ≤ b1 ∧ b1 < 192) ∧ (128 ≤ b2 ∧ b2 < 192) ∧
              ¬(b = 224 ∧ b1 < 160) ∧ ¬(b = 237 ∧ 160 ≤ b1) then
            (utf8Decode bs3).map fun cs =>
              Char.ofNat ((b - 224) * 4096 + (b1 - 128) * 64 + (b2 - 128)) :: cs
          else none
        | _ => none
      else if b < 245 then
        match bs with
        | b1 :: b2 :: b3 :: bs4 =>
          if (128 ≤ b1 ∧ b1 < 192) ∧ (128 ≤ b2 ∧ b2 < 192) ∧ (128 ≤ b3 ∧ b3 < 192) ∧
              ¬(b = 240 ∧ b1 < 144) ∧ ¬(b = 244 ∧ 144 ≤ b1) then
            (utf8Decode bs4).map fun cs =>
              Char.ofNat ((b - 240) * 262144 + (b1 - 128) * 4096 + (b2 - 128) * 64 +
                (b3 - 128)) :: cs
          else none
        | _ => none
      else none) := by
  rcases bs with _ | ⟨b1, _ | ⟨b2, _ | ⟨b3, bs4⟩⟩⟩ <;> rfl

/-- Decoding one encoded scalar from the front of a byte stream yields
the original character and continues with the rest. -/
theorem utf8Decode_encodeChar (c : Char) (rest : List Nat) :
    utf8Decode (utf8EncodeChar c.toNat ++ rest) =
      (utf8Decode rest).map fun cs => c :: cs := by
  have hval := char_toNat_valid c
  have hofnat := Char.ofNat_toNat c
  unfold utf8EncodeChar
  by_cases h1 : c.toNat < 128
  · rw [if_pos h1]
    simp only [List.cons_append, List.nil_append, utf8Decode_cons, if_pos h1, hofnat]
  · by_cases h2 : c.toNat < 2048
    · rw [if_neg h1, if_pos h2]
      simp only [List.cons_append, List.nil_append]
      rw [utf8Decode_cons,
        if_neg (show ¬(192 + c.toNat / 64 < 128) by omega),
        if_neg (show ¬(192 + c.toNat / 64 < 194) by omega),
        if_pos (show 192 + c.toNat / 64 < 224 by omega)]
      dsimp only
      rw [if_pos (show 128 ≤ 128 + c.toNat % 64 ∧ 128 + c.toNat % 64 < 192 by omega)]
      have harg : (192 + c.toNat / 64 - 192) * 64 + (128 + c.toNat % 64 - 128) =
          c.toNat := by omega
      simp only [harg, hofnat]
    · by_cases h3 : c.toNat < 65536
      · rw [if_neg h1, if_neg h2, if_pos h3]
        simp only [List.cons_append, List.nil_append]
        rw [utf8Decode_cons,
          if_neg (show ¬(224 + c.toNat / 4096 < 128) by omega),
          if_neg (show ¬(224 + c.toNat / 4096 < 194) by omega),
          if_neg (show ¬(224 + c.toNat / 4096 < 224) by omega),
          if_pos (show 224 + c.toNat / 4096 < 240 by omega)]
        dsimp only
        rw [if_pos (show (128 ≤ 128 + c.toNat / 64 % 64 ∧ 128 + c.toNat / 64 % 64 < 192) ∧
            (128 ≤ 128 + c.toNat % 64 ∧ 128 + c.toNat % 64 < 192) ∧
            ¬(224 + c.toNat / 4096 = 224 ∧ 128 + c.toNat / 64 % 64 < 160) ∧
            ¬(224 + c.toNat / 4096 = 237 ∧ 160 ≤ 128 + c.toNat / 64 % 64) by omega)]
        have harg : (224 + c.toNat / 4096 - 224) * 4096 +
            (128 + c.toNat / 64 % 64 - 128) * 64 + (128 + c.toNat % 64 - 128) =
            c.toNat := by omega
        simp only [harg, hofnat]
      · rw [if_neg h1, if_neg h2, if_neg h3]
        simp only [List.cons_append, List.nil_append]
        rw [utf8Decode_cons,
          if_neg (show ¬(240 + c.toNat / 262144 < 128) by omega),
          if_neg (show ¬(240 + c.toNat / 262144 < 194) by omega),
          if_neg (show ¬(240 + c.toNat / 262144 < 224) by omega),
          if_neg (show ¬(240 + c.toNat / 262144 < 240) by omega),
          if_pos (show 240 + c.toNat / 262144 < 245 by omega)]
        dsimp only
        rw [if_pos (show (128 ≤ 128 + c.toNat / 4096 % 64 ∧ 128 + c.toNat / 4096 % 64 < 192) ∧
            (128 ≤ 128 + c.toNat / 64 % 64 ∧ 128 + c.toNat / 64 % 64 < 192) ∧
            (128 ≤ 128 + c.toNat % 64 ∧ 128 + c.toNat % 64 < 192) ∧
            ¬(240 + c.toNat / 262144 = 240 ∧ 128 + c.toNat / 4096 % 64 < 144) ∧
            ¬(240 + c.toNat / 262144 = 244 ∧ 144 ≤ 128 + c.toNat / 4096 % 64) by omega)]
        have harg : (240 + c.toNat / 262144 - 240) * 262144 +
            (128 + c.toNat / 4096 % 64 - 128) * 4096 +
            (128 + c.toNat / 64 % 64 - 128) * 64 + (128 + c.toNat % 64 - 128) =
            c.toNat := by omega
        simp only [harg, hofnat]

/-- Decoding inverts encoding on whole strings (`std::str::from_utf8` of
a Rust `String`'s bytes). -/
theorem utf8Decode_utf8Encode (s : String) : utf8Decode (utf8Encode s) = some s.data := by
  unfold utf8Encode
  induction s.data with
  | nil => rfl
  | cons c t ih =>
    rw [List.map_cons, List.flatten_cons, utf8Decode_encodeChar, ih]
    rfl

/-- The Domain → Wire → Domain round trip on the description text:
base64-encoding the UTF-8 bytes and decoding them back recovers the
text. -/
theorem decodeInfoText_encodeInfoText (s : String) :
    decodeInfoText (encodeInfoText s) = some s := by
  unfold decodeInfoText encodeInfoText
  have hbytes : ∀ x ∈ utf8Encode s, x < 256 := by
    intro x hx
    unfold utf8Encode at hx
    rw [List.mem_flatten] at hx
    obtain ⟨l, hl, hxl⟩ := hx
    rw [List.mem_map] at hl
    obtain ⟨c, -, rfl⟩ := hl
    exact utf8EncodeChar_bytes_lt c x hxl
  have hdata : (String.mk (b64encode (utf8Encode s))).data = b64encode (utf8Encode s) :=
    rfl
  rw [hdata, b64decode_b64encode _ hbytes]
  simp only [Option.some_bind, utf8Decode_utf8Encode s, Option.map_some']

/-! # Claim theorems: full record round trip (C1) -/

theorem map_player_roundtrip (pl : List Player) :
    List.map playerFromRaw (List.map rawPlayerFromPlayer pl) = pl := by
  induction pl with
  | nil => rfl
  | cons p t ih => simp [ih, playerFromRaw_rawPlayerFromPlayer]

/-- C1: a domain `ServerInfo` with every optional field populated
round-trips Domain → Wire → Domain to an equal record in every field:
the date (formatted `%Y-%m-%d` and parsed back), both count integers
(printed `"current/max"` and split back), the description text
(base64-encoded UTF-8 and decoded back), the player list, the booleans
and the mod count. -/
theorem claim_record_roundtrip : ∀ (idv portv : Nat) (d : DomainDate) (pc : PlayersCount)
    (pl : List Player) (infoText : String) (ff wl md sp asp : Bool) (modsv : Nat),
    d.Valid → pc.current_players < 4294967296 → pc.max_players < 4294967296 →
    serverInfoFromRaw (rawServerInfoFromServerInfo
      { id := idv, port := portv, last_online := some d, players_count := some pc,
        players := some pl, info := some infoText, friendly_fire := some ff,
        whitelist := some wl, modded := some md, mods := some modsv,
        suppress := some sp, auto_suppress := some asp }) =
      some { id := idv, port := portv, last_online := some d, players_count := some pc,
             players := some pl, info := some infoText, friendly_fire := some ff,
             whitelist := some wl, modded := some md, mods := some modsv,
             suppress := some sp, auto_suppress := some asp } := by
  intro idv portv d pc pl infoText ff wl md sp asp modsv hd hc hm
  unfold rawServerInfoFromServerInfo serverInfoFromRaw
  simp only [Option.map_some', optTraverse, parseDate_format d hd,
    parsePlayersCount_format pc hc hm, decodeInfoText_encodeInfoText,
    Option.bind_eq_bind, Option.some_bind, List.map_map, map_player_roundtrip]
  have hmap : List.map (playerFromRaw ∘ rawPlayerFromPlayer) pl = pl := by
    rw [← List.map_map]
    exact map_player_roundtrip pl
  rw [hmap]

/-- C1 witness: the round trip evaluated at a concrete fully-populated
record. -/
theorem claim_record_roundtrip_witness :
    DomainDate.Valid { year := 2023, month := 2, day := 28 } ∧
    serverInfoFromRaw (rawServerInfoFromServerInfo
      { id := 42, port := 7777,
        last_online := some { year := 2023, month := 2, day := 28 },
        players_count := some { max_players := 20, current_players := 5 },
        players := some [{ id := "76561198000000000@steam", nickname := none },
                         { id := "discord", nickname := some "player two" }],
        info := some "Hello", friendly_fire := some true, whitelist := some false,
        modded := some true, mods := some 3, suppress := some false,
        auto_suppress := some true }) =
      some { id := 42, port := 7777,
             last_online := some { year := 2023, month := 2, day := 28 },
             players_count := some { max_players := 20, current_players := 5 },
             players := some [{ id := "76561198000000000@steam", nickname := none },
                              { id := "discord", nickname := some "player two" }],
             info := some "Hello", friendly_fire := some true, whitelist := some false,
             modded := some true, mods := some 3, suppress := some false,
             auto_suppress := some true } :=
  ⟨by decide,
   claim_record_roundtrip 42 7777 { year := 2023, month := 2, day := 28 }
     { max_players := 20, current_players := 5 }
     [{ id := "76561198000000000@steam", nickname := none },
      { id := "discord", nickname := some "player two" }]
     "Hello" true false true false true 3 (by decide) (by decide) (by decide)⟩

/-! # Evaluation checks (concrete executions of the embedded functions) -/

theorem sanity_split : splitOnChar '/' "5/20".data = ["5".data, "20".data] := by decide

theorem sanity_count : parsePlayersCount "5/20" =
    some { max_players := 20, current_players := 5 } := by decide

theorem sanity_date1 : parseDate "2023-02-28" =
    some { year := 2023, month := 2, day := 28 } := by decide

theorem sanity_date2 : parseDate "2023-02-30" = none := by decide

theorem sanity_date3 : formatDate { year := 2023, month := 2, day := 28 } = "2023-02-28" := by decide

theorem sanity_date4 : parseDate "2023-2-28" =
    some { year := 2023, month := 2, day := 28 } := by decide

theorem sanity_info : decodeInfoText "SGVsbG8=" = some "Hello" := by decide

theorem sanity_info2 : encodeInfoText "Hello" = "SGVsbG8=" := by decide

theorem sanity_ip1 : ipAddrFromStr "127.0.0.1" = some (.v4 127 0 0 1) := by decide

theorem sanity_ip2 : ipAddrFromStr "::1" = some (.v6 [0, 0, 0, 0, 0, 0, 0, 1]) := by decide

theorem sanity_ip3 : ipAddrFromStr "2001:db8::ff00:42:8329" =
    some (.v6 [8193, 3512, 0, 0, 0, 65280, 66, 33577]) := by decide

theorem sanity_ip4 : ipAddrFromStr "::ffff:192.168.0.1" =
    some (.v6 [0, 0, 0, 0, 0, 65535, 49320, 1]) := by decide

theorem sanity_ip5 : ipAddrFromStr "01.2.3.4" = none := by decide

theorem sanity_ip6 : ipAddrFromStr "256.1.1.1" = none := by decide

theorem sanity_ip7 : ipAddrFromStr "1.2.3.4x" = none := by decide

theorem sanity_ip8 : ipAddrFromStr "1:::2" = none := by decide

theorem sanity_ip9 : ipAddrFromStr "1:2:3:4:5:6:7:8:9" = none := by decide

theorem sanity_json1 :
    responseFromJson (.obj [("Success", .bool false), ("Error", .str "rate limited")]) =
      .ok (some (.Error { error := "rate limited" })) := rfl

theorem sanity_json2 :
    responseFromJson (.obj [("Success", .bool true), ("Servers", .arr []), ("Success", .num 30)]) =
      .error (.duplicateField "Success") := rfl
